import Mathlib

/-!
Verification development for the deterministic acquisition, hashing,
verification and drift-detection pipeline of the eudr_dmi repository.

The Python sources are shallowly embedded:

* file contents are Lean `String`s; a directory tree is an association list
  from slash-separated relative paths to contents (`FileMap`);
* `sha256_file` / `hashlib.sha256` are modelled by an uninterpreted
  fingerprint function `hash : String -> String` passed as a parameter
  (the pipeline only ever compares fingerprints for equality);
* parsed JSON documents are modelled by the inductive `JVal`; Python's
  conflation of a missing key and a JSON `null` under `dict.get` is
  modelled by `pget`, and `dict.get(k, default)` by `dictGetD`;
* functions embed the control flow of the corresponding Python function
  (`write_manifest_sha256`, `write_run_manifest`, `run_for_source`,
  `verify_run_folder`, `fetchClassify` for `_fetch`,
  `compute_needs_update` for `_compute_needs_update`, `validate_bundle`,
  and the watcher main loop of `watch_dependency_definitions.py`).
-/

namespace EudrDmi

/-- JSON values, as produced by `json.loads`.  Object fields are kept in
document order; Python compares dictionaries order-insensitively, which is
modelled where needed by the canonicalisation function `canon`. -/
inductive JVal where
  | jnull : JVal
  | jbool : Bool → JVal
  | jnum : Int → JVal
  | jstr : String → JVal
  | jarr : List JVal → JVal
  | jobj : List (String × JVal) → JVal

mutual

/-- Structural equality of JSON values (Python `==` on parsed JSON; the
values compared by this pipeline are strings, numbers, booleans and nulls,
for which Python equality coincides with structural equality). -/
def JVal.beq : JVal → JVal → Bool
  | .jnull, .jnull => true
  | .jbool a, .jbool b => a == b
  | .jnum a, .jnum b => a == b
  | .jstr a, .jstr b => a == b
  | .jarr xs, .jarr ys => beqJList xs ys
  | .jobj fs, .jobj gs => beqJFields fs gs
  | _, _ => false

/-- Elementwise equality of JSON arrays. -/
def beqJList : List JVal → List JVal → Bool
  | [], [] => true
  | x :: xs, y :: ys => JVal.beq x y && beqJList xs ys
  | _, _ => false

/-- Elementwise equality of JSON object field lists. -/
def beqJFields : List (String × JVal) → List (String × JVal) → Bool
  | [], [] => true
  | (k, v) :: xs, (l, w) :: ys => k == l && JVal.beq v w && beqJFields xs ys
  | _, _ => false

end

instance : BEq JVal := ⟨JVal.beq⟩

namespace JVal

/-- First binding of key `k` in an object, `none` for non-objects or
missing keys (parsed JSON objects have distinct keys). -/
def lookup : JVal → String → Option JVal
  | jobj fields, k => (fields.find? (fun p => p.1 == k)).map (·.2)
  | _, _ => none

/-- Python `d.get(k)`: a missing key and an explicit JSON null are both
`None` after `json.loads`, so both map to `jnull`. -/
def pget (v : JVal) (k : String) : JVal := (v.lookup k).getD jnull

/-- Python `d.get(k, default)`. -/
def dictGetD (v : JVal) (k : String) (d : JVal) : JVal :=
  match v.lookup k with
  | some x => x
  | none => d

/-- Python `k in d` for an object. -/
def hasKey (v : JVal) (k : String) : Bool := (v.lookup k).isSome

/-- Python `isinstance(v, dict)`. -/
def isObj : JVal → Bool
  | jobj _ => true
  | _ => false

/-- Python `isinstance(v, list)`. -/
def isArr : JVal → Bool
  | jarr _ => true
  | _ => false

/-- Python truthiness of a parsed JSON value (`bool(v)`). -/
def truthy : JVal → Bool
  | jnull => false
  | jbool b => b
  | jnum n => n != 0
  | jstr s => s ≠ ""
  | jarr xs => !xs.isEmpty
  | jobj fields => !fields.isEmpty

/-- Python `v or {}` as used on parsed JSON sub-objects. -/
def orEmptyObj (v : JVal) : JVal := if v.truthy then v else jobj []

end JVal

open JVal

/-- The watcher's `_get(dct, *path)` helper of
`fetch_eurlex_eudr_32023R1115.py`: walk a key path, returning `None`
(here `jnull`) as soon as a step is not a dictionary or a key is absent. -/
def jpathGet : JVal → List String → JVal
  | v, [] => v
  | jobj fields, k :: rest => jpathGet (pget (jobj fields) k) rest
  | _, _ :: _ => jnull

/-! ## Directory model -/

/-- A directory tree: association list from slash-separated relative path
to file content.  A real file system never repeats a path, which theorems
assume through `Nodup` hypotheses on the mapped keys. -/
abbrev FileMap := List (String × String)

/-- Content of the file at relative path `p`, if present. -/
def fileAt (fs : FileMap) (p : String) : Option String :=
  (fs.find? (fun e => e.1 == p)).map (·.2)

/-- Write (create or overwrite) the file at path `p`. -/
def setFile : FileMap → String → String → FileMap
  | [], p, c => [(p, c)]
  | e :: fs, p, c => if e.1 = p then (p, c) :: fs else e :: setFile fs p c

/-- Structural single-character splitter: the core of Python
`str.split(sep)` for one-character separators, written so that concrete
instances evaluate. -/
def splitOnCharAux (sep : Char) : List Char → List Char → List (List Char)
  | [], acc => [acc.reverse]
  | c :: cs, acc =>
    if c = sep then acc.reverse :: splitOnCharAux sep cs []
    else splitOnCharAux sep cs (c :: acc)

/-- Split a character list on a separator character. -/
def splitOnChar (sep : Char) (cs : List Char) : List (List Char) := splitOnCharAux sep cs []

/-- Python `str.strip()`. -/
def pyStrip (s : String) : String :=
  String.mk (((s.toList.dropWhile Char.isWhitespace).reverse.dropWhile
    Char.isWhitespace).reverse)

/-- First occurrence of two consecutive spaces, as in `s.split("  ", 1)`:
the text before and after it. -/
def splitTwoSpaceOnce : List Char → Option (List Char × List Char)
  | [] => none
  | [_] => none
  | a :: b :: rest =>
    if a = ' ' ∧ b = ' ' then some ([], rest)
    else
      match splitTwoSpaceOnce (b :: rest) with
      | some (pre, post) => some (a :: pre, post)
      | none => none

/-- Python `"  " in s`. -/
def containsTwoSpace (s : String) : Bool := (splitTwoSpaceOnce s.toList).isSome

/-- Python `s.split("  ", 1)` when the separator occurs; `(s, "")`
otherwise. -/
def splitTwoSpace (s : String) : String × String :=
  match splitTwoSpaceOnce s.toList with
  | some (pre, post) => (String.mk pre, String.mk post)
  | none => (s, "")

/-- Python `Path(p).name`: the final path component. -/
def baseName (p : String) : String := (((splitOnChar '/' p.toList)).map String.mk).getLastD p

/-! ## Manifest utility (`src/eudr_dmi/evidence/hash_utils.py`) -/

/-- The skip test of `write_manifest_sha256`: a walked file is skipped when
its relative path or its basename is in the exclusion set. -/
def excludedName (excl : List String) (rel : String) : Bool :=
  excl.contains rel || excl.contains (baseName rel)

/-- Default of the `exclude` parameter:
`{"manifest.sha256"} if exclude is None else set(exclude)`. -/
def effectiveExclude : Option (List String) → List String
  | none => ["manifest.sha256"]
  | some s => s

/-- The files of the walk that survive the exclusion test. -/
def includedFiles (fs : FileMap) (excl : List String) : FileMap :=
  fs.filter (fun e => !(excludedName excl e.1))

/-- Ordering of manifest entries: lexicographic on the relative path
(`entries.sort(key=lambda t: t[0])`). -/
def keyLE (a b : String × String) : Prop := a.1 ≤ b.1

instance : DecidableRel keyLE := fun a b =>
  decidable_of_iff (a.1.toList ≤ b.1.toList) String.le_iff_toList_le.symm

instance : IsTotal (String × String) keyLE := ⟨fun a b => le_total a.1 b.1⟩

instance : IsTrans (String × String) keyLE := ⟨fun _ _ _ h₁ h₂ => le_trans h₁ h₂⟩

/-- The sorted `(relative path, fingerprint)` entry list computed by
`write_manifest_sha256`. -/
def manifestEntries (hash : String → String) (fs : FileMap) (excl : List String) :
    List (String × String) :=
  List.insertionSort keyLE ((includedFiles fs excl).map (fun e => (e.1, hash e.2)))

/-- One manifest line: `f"{digest}  {rel_name}\n"`. -/
def manifestLine (e : String × String) : String := e.2 ++ "  " ++ e.1 ++ "\n"

/-- The full text written to `manifest.sha256`. -/
def manifestText (hash : String → String) (fs : FileMap) (excl : List String) : String :=
  String.join ((manifestEntries hash fs excl).map manifestLine)

/-- `write_manifest_sha256(bundle_dir, exclude)`: walk the tree, hash the
non-excluded files, sort by path and write one line per entry to
`manifest.sha256`.  Returns the updated tree and the written text. -/
def write_manifest_sha256 (hash : String → String) (fs : FileMap)
    (exclude : Option (List String)) : FileMap × String :=
  let text := manifestText hash fs (effectiveExclude exclude)
  (setFile fs "manifest.sha256" text, text)

/-- Python `str.splitlines()` for LF-only text. -/
def splitLines (s : String) : List String :=
  if s = "" then []
  else
    let ps := (splitOnChar (Char.ofNat 10) s.toList).map String.mk
    if ps.getLast? = some "" then ps.dropLast else ps

/-- The line filter of `write_run_manifest`
(`tools/dependencies/acquire_and_hash.py`): drop blank lines and entries
whose relative path is `run_summary.json`, keep everything else verbatim. -/
def runSummaryFilter (lines : List String) : List String :=
  lines.filter (fun raw =>
    let line := pyStrip raw
    if line = "" then false
    else if !(containsTwoSpace line) then true
    else (splitTwoSpace line).2 ≠ "run_summary.json")

/-- `write_run_manifest(run_dir)`: seal via `write_manifest_sha256` with the
default exclusion, then rewrite the manifest with `run_summary.json`
entries filtered out. -/
def write_run_manifest (hash : String → String) (fs : FileMap) : FileMap × String :=
  let r := write_manifest_sha256 hash fs none
  let kept := runSummaryFilter (splitLines r.2)
  let newText := if kept = [] then "" else String.intercalate "\n" kept ++ "\n"
  (setFile r.1 "manifest.sha256" newText, newText)

/-! ## Lemmas about the manifest writer -/

theorem mem_map_fst_setFile (fs : FileMap) (q c p : String) :
    p ∈ (setFile fs q c).map Prod.fst ↔ p ∈ fs.map Prod.fst ∨ p = q := by
  induction fs with
  | nil => simp [setFile, eq_comm]
  | cons e fs ih =>
    by_cases h : e.1 = q
    · simp [setFile, h]
      tauto
    · simp [setFile, h, ih]
      tauto

theorem includedFiles_setFile (fs : FileMap) (excl : List String) (q c : String)
    (h : excludedName excl q = true) :
    includedFiles (setFile fs q c) excl = includedFiles fs excl := by
  induction fs with
  | nil => simp [setFile, includedFiles, h]
  | cons e fs ih =>
    by_cases he : e.1 = q
    · simp only [setFile, if_pos he, includedFiles] at *
      rw [List.filter_cons, List.filter_cons]
      simp [h, he ▸ h]
    · simp only [setFile, if_neg he, includedFiles] at *
      rw [List.filter_cons, List.filter_cons]
      by_cases hk : excludedName excl e.1
      · simp [hk, ih]
      · simp [hk, ih]

theorem manifestText_setFile (hash : String → String) (fs : FileMap) (excl : List String)
    (q c : String) (h : excludedName excl q = true) :
    manifestText hash (setFile fs q c) excl = manifestText hash fs excl := by
  unfold manifestText manifestEntries
  rw [includedFiles_setFile _ _ _ _ h]

theorem excludedName_manifest (excl : List String) (h : "manifest.sha256" ∈ excl) :
    excludedName excl "manifest.sha256" = true := by
  simp only [excludedName, Bool.or_eq_true]
  exact Or.inl (List.elem_eq_true_of_mem h)

/-- C1: for a run directory, the manifest written by `write_manifest_sha256`
consists of exactly one line `"<fingerprint>  <relative-path>\n"` per
non-excluded file, sorted lexicographically by relative path, without
duplicate paths; the listed path set equals the set of files present in the
sealed directory minus the exclusion set, and (the exclusion set containing
the manifest's own filename, as at every run-directory call site) the
manifest never lists itself. -/
theorem manifest_complete_sorted (hash : String → String) (fs : FileMap)
    (exclude : Option (List String))
    (hnodup : (fs.map Prod.fst).Nodup)
    (hexcl : "manifest.sha256" ∈ effectiveExclude exclude) :
    (write_manifest_sha256 hash fs exclude).2 =
        String.join ((manifestEntries hash fs (effectiveExclude exclude)).map manifestLine)
    ∧ List.Sorted (· ≤ ·) ((manifestEntries hash fs (effectiveExclude exclude)).map Prod.fst)
    ∧ ((manifestEntries hash fs (effectiveExclude exclude)).map Prod.fst).Nodup
    ∧ (∀ p, p ∈ (manifestEntries hash fs (effectiveExclude exclude)).map Prod.fst ↔
        (p ∈ (write_manifest_sha256 hash fs exclude).1.map Prod.fst ∧
          excludedName (effectiveExclude exclude) p = false))
    ∧ "manifest.sha256" ∉ (manifestEntries hash fs (effectiveExclude exclude)).map Prod.fst := by
  have hman := excludedName_manifest _ hexcl
  have hperm :
      List.Perm (manifestEntries hash fs (effectiveExclude exclude))
        ((includedFiles fs (effectiveExclude exclude)).map (fun e => (e.1, hash e.2))) :=
    List.perm_insertionSort _ _
  have hmapeq :
      ((includedFiles fs (effectiveExclude exclude)).map
          (fun e => (e.1, hash e.2))).map Prod.fst =
        (includedFiles fs (effectiveExclude exclude)).map Prod.fst := by
    simp [List.map_map, Function.comp]
  have hmem : ∀ p, p ∈ (manifestEntries hash fs (effectiveExclude exclude)).map Prod.fst ↔
      (p ∈ fs.map Prod.fst ∧ excludedName (effectiveExclude exclude) p = false) := by
    intro p
    rw [(hperm.map Prod.fst).mem_iff, hmapeq]
    constructor
    · rintro hp
      rcases List.mem_map.1 hp with ⟨e, he, rfl⟩
      rcases List.mem_filter.1 he with ⟨hefs, hepred⟩
      refine ⟨List.mem_map_of_mem _ hefs, ?_⟩
      simpa using hepred
    · rintro ⟨hp, hnex⟩
      rcases List.mem_map.1 hp with ⟨e, he, rfl⟩
      exact List.mem_map_of_mem _ (List.mem_filter.2 ⟨he, by simp [hnex]⟩)
  refine ⟨rfl, ?_, ?_, ?_, ?_⟩
  · have hs := List.sorted_insertionSort keyLE
      ((includedFiles fs (effectiveExclude exclude)).map (fun e => (e.1, hash e.2)))
    exact List.pairwise_map.2 hs
  · have hsub : List.Sublist ((includedFiles fs (effectiveExclude exclude)).map Prod.fst)
        (fs.map Prod.fst) := (List.filter_sublist _).map _
    have hnd : ((includedFiles fs (effectiveExclude exclude)).map Prod.fst).Nodup :=
      hnodup.sublist hsub
    have := (hperm.map Prod.fst).nodup_iff
    rw [hmapeq] at this
    exact this.2 hnd
  · intro p
    rw [hmem p]
    constructor
    · rintro ⟨hp, hnex⟩
      exact ⟨(mem_map_fst_setFile fs _ _ p).2 (Or.inl hp), hnex⟩
    · rintro ⟨hp, hnex⟩
      rcases (mem_map_fst_setFile fs _ _ p).1 hp with hp' | rfl
      · exact ⟨hp', hnex⟩
      · rw [hman] at hnex
        cases hnex
  · intro hmemman
    rcases (hmem _).1 hmemman with ⟨_, hfalse⟩
    rw [hman] at hfalse
    cases hfalse

/-- Witness for C1 at a concrete two-file run directory with the default
exclusion set. -/
theorem manifest_complete_sorted_witness :
    (((([("artifact.bin", "x"), ("metadata.json", "y")] : FileMap).map Prod.fst).Nodup
      ∧ "manifest.sha256" ∈ effectiveExclude none)
    ∧ ((write_manifest_sha256 (fun s => s) [("artifact.bin", "x"), ("metadata.json", "y")]
          none).2 =
        String.join ((manifestEntries (fun s => s) [("artifact.bin", "x"), ("metadata.json", "y")]
            (effectiveExclude none)).map manifestLine)
      ∧ List.Sorted (· ≤ ·) ((manifestEntries (fun s => s)
          [("artifact.bin", "x"), ("metadata.json", "y")]
            (effectiveExclude none)).map Prod.fst)
      ∧ ((manifestEntries (fun s => s) [("artifact.bin", "x"), ("metadata.json", "y")]
            (effectiveExclude none)).map Prod.fst).Nodup
      ∧ (∀ p, p ∈ (manifestEntries (fun s => s) [("artifact.bin", "x"), ("metadata.json", "y")]
            (effectiveExclude none)).map Prod.fst ↔
          (p ∈ (write_manifest_sha256 (fun s => s) [("artifact.bin", "x"), ("metadata.json", "y")]
              none).1.map Prod.fst ∧
            excludedName (effectiveExclude none) p = false))
      ∧ "manifest.sha256" ∉ (manifestEntries (fun s => s)
          [("artifact.bin", "x"), ("metadata.json", "y")]
            (effectiveExclude none)).map Prod.fst)) :=
  ⟨⟨by decide, by decide⟩,
    manifest_complete_sorted (fun s => s) [("artifact.bin", "x"), ("metadata.json", "y")] none
      (by decide) (by decide)⟩

/-- C2: calling the manifest writer twice on a directory whose other files
are unchanged produces byte-identical manifest output, both for
`write_manifest_sha256` (whose run-directory exclusion sets always contain
the manifest filename) and for the wrapper `write_run_manifest`. -/
theorem manifest_writer_idempotent (hash : String → String) (fs : FileMap)
    (exclude : Option (List String))
    (hexcl : "manifest.sha256" ∈ effectiveExclude exclude) :
    (write_manifest_sha256 hash (write_manifest_sha256 hash fs exclude).1 exclude).2 =
      (write_manifest_sha256 hash fs exclude).2
    ∧ (write_run_manifest hash (write_run_manifest hash fs).1).2 =
      (write_run_manifest hash fs).2 := by
  have hman := excludedName_manifest _ hexcl
  have hmanDefault : excludedName (effectiveExclude none) "manifest.sha256" = true :=
    excludedName_manifest _ (by simp [effectiveExclude])
  constructor
  · simp only [write_manifest_sha256]
    rw [manifestText_setFile _ _ _ _ _ hman]
  · have key : ∀ g : FileMap,
        manifestText hash g (effectiveExclude none) =
          manifestText hash fs (effectiveExclude none) →
        (write_run_manifest hash g).2 = (write_run_manifest hash fs).2 := by
      intro g hg
      simp only [write_run_manifest, write_manifest_sha256]
      rw [hg]
    apply key
    simp only [write_run_manifest, write_manifest_sha256]
    rw [manifestText_setFile _ _ _ _ _ hmanDefault, manifestText_setFile _ _ _ _ _ hmanDefault]

/-- Witness for C2 at a concrete one-file directory. -/
theorem manifest_writer_idempotent_witness :
    ("manifest.sha256" ∈ effectiveExclude none)
    ∧ ((write_manifest_sha256 (fun s => s)
          (write_manifest_sha256 (fun s => s) [("artifact.bin", "x")] none).1 none).2 =
        (write_manifest_sha256 (fun s => s) [("artifact.bin", "x")] none).2
      ∧ (write_run_manifest (fun s => s)
          (write_run_manifest (fun s => s) [("artifact.bin", "x")] ).1).2 =
        (write_run_manifest (fun s => s) [("artifact.bin", "x")] ).2) :=
  ⟨by decide, manifest_writer_idempotent (fun s => s) [("artifact.bin", "x")] none (by decide)⟩

/-! ## The content fetcher `_fetch` of `scripts/fetch_eurlex_eudr_32023R1115.py` -/

/-- What `urlopen` hands to `_fetch`: a response object (status already
resolved through `getattr(resp, "status", None) or resp.getcode()`, header
keys already lowercased), or one of the caught exception classes. -/
inductive UrlOpenOutcome where
  | response (status : Int) (headers : List (String × String)) (body : String)
  | httpError (code : Int) (headers : List (String × String))
  | urlError (reason : String)
  | otherError (typeName msg : String)

/-- Python `headers.get(k)` on the lowercased header dictionary. -/
def headerGet (hs : List (String × String)) (k : String) : Option String :=
  (hs.find? (fun p => p.1 == k)).map (·.2)

/-- `_fetch(url)` minus the transport itself: classify the `urlopen`
outcome into `(status, headers, body, error)` exactly as the Python
function does. -/
def fetchClassify :
    UrlOpenOutcome → Option Int × List (String × String) × Option String × Option String
  | .response status headers body =>
    if status = 202 ∧ headerGet headers "x-amzn-waf-action" = some "challenge" then
      (some status, headers, none, some "waf_challenge")
    else if status ≠ 200 then
      (some status, headers, none, some ("http_" ++ toString status))
    else if body = "" then
      (some status, headers, none, some "empty_body")
    else
      (some status, headers, some body, none)
  | .httpError code headers => (some code, headers, none, some ("http_error_" ++ toString code))
  | .urlError reason => (none, [], none, some ("url_error_" ++ reason))
  | .otherError tn msg => (none, [], none, some ("error_" ++ tn ++ ": " ++ msg))

/-- C5 counterexample: a 500 response with an empty body is classified as
`http_500`, not `empty_body` — the status test precedes the body test, so
"a response with an empty body yields error empty_body" fails as stated. -/
theorem fetch_empty_body_counterexample :
    (fetchClassify (.response 500 [] "")).2.2.2 = some "http_500"
    ∧ some "http_500" ≠ (some "empty_body" : Option String) := by
  refine ⟨rfl, ?_⟩
  intro h
  simp at h

/-- C5 (amended): `_fetch` returns no body on failure and classifies a
delivered response as follows: HTTP 202 with the vendor challenge header
is `waf_challenge`; otherwise any non-200 status is `http_<code>`; a 200
response with an empty body is `empty_body`; and a body is returned only
when the status is 200, the body is non-empty, and the error is none. -/
theorem fetch_classification (status : Int) (headers : List (String × String)) (body : String) :
    (status = 202 → headerGet headers "x-amzn-waf-action" = some "challenge" →
      (fetchClassify (.response status headers body)).2.2.2 = some "waf_challenge"
      ∧ (fetchClassify (.response status headers body)).2.2.1 = none)
    ∧ (¬(status = 202 ∧ headerGet headers "x-amzn-waf-action" = some "challenge") →
        status ≠ 200 →
      (fetchClassify (.response status headers body)).2.2.2 = some ("http_" ++ toString status)
      ∧ (fetchClassify (.response status headers body)).2.2.1 = none)
    ∧ (status = 200 → body = "" →
      (fetchClassify (.response status headers body)).2.2.2 = some "empty_body"
      ∧ (fetchClassify (.response status headers body)).2.2.1 = none)
    ∧ (status = 200 → body ≠ "" →
      (fetchClassify (.response status headers body)).2.2.1 = some body
      ∧ (fetchClassify (.response status headers body)).2.2.2 = none)
    ∧ (∀ b, (fetchClassify (.response status headers body)).2.2.1 = some b →
        status = 200 ∧ body ≠ "" ∧ b = body
        ∧ (fetchClassify (.response status headers body)).2.2.2 = none) := by
  refine ⟨?_, ?_, ?_, ?_, ?_⟩
  · intro h2 hch
    simp [fetchClassify, h2, hch]
  · intro hnot hne
    simp [fetchClassify, hnot, hne]
  · intro h200 hb
    have hnot : ¬(status = 202 ∧ headerGet headers "x-amzn-waf-action" = some "challenge") := by
      rintro ⟨h, _⟩
      rw [h200] at h
      exact absurd h (by decide)
    simp [fetchClassify, hnot, h200, hb]
  · intro h200 hb
    have hnot : ¬(status = 202 ∧ headerGet headers "x-amzn-waf-action" = some "challenge") := by
      rintro ⟨h, _⟩
      rw [h200] at h
      exact absurd h (by decide)
    simp [fetchClassify, hnot, h200, hb]
  · intro b hb
    by_cases hch : status = 202 ∧ headerGet headers "x-amzn-waf-action" = some "challenge"
    · simp [fetchClassify, hch] at hb
    · by_cases h200 : status = 200
      · by_cases hbody : body = ""
        · simp [fetchClassify, hch, h200, hbody] at hb
        · have h1 : (fetchClassify (.response status headers body)).2.2.1 = some body := by
            simp [fetchClassify, hch, h200, hbody]
          have h2 : (fetchClassify (.response status headers body)).2.2.2 = none := by
            simp [fetchClassify, hch, h200, hbody]
          rw [h1] at hb
          exact ⟨h200, hbody, (Option.some.inj hb).symm, h2⟩
      · simp [fetchClassify, hch, h200] at hb

/-- Witness for C5's amended classification at concrete responses: the
challenge case, the non-200 empty-body case and the successful case. -/
theorem fetch_classification_witness :
    ((fetchClassify (.response 202 [("x-amzn-waf-action", "challenge")] "")).2.2.2 =
        some "waf_challenge"
      ∧ (fetchClassify (.response 202 [("x-amzn-waf-action", "challenge")] "")).2.2.1 = none)
    ∧ ((fetchClassify (.response 500 [] "")).2.2.2 = some ("http_" ++ toString (500 : Int))
      ∧ (fetchClassify (.response 500 [] "")).2.2.1 = none)
    ∧ ((fetchClassify (.response 200 [] "payload")).2.2.1 = some "payload"
      ∧ (fetchClassify (.response 200 [] "payload")).2.2.2 = none) :=
  ⟨(fetch_classification 202 [("x-amzn-waf-action", "challenge")] "").1 rfl rfl,
    (fetch_classification 500 [] "").2.1 (by simp) (by decide),
    (fetch_classification 200 [] "payload").2.2.2.1 rfl (by decide)⟩

/-! ## Run writer (`tools/dependencies/acquire_and_hash.py`) -/

theorem fileAt_cons (e : String × String) (fs : FileMap) (q : String) :
    fileAt (e :: fs) q = if e.1 = q then some e.2 else fileAt fs q := by
  by_cases h : e.1 = q
  · unfold fileAt
    rw [List.find?_cons_of_pos _ (by simp [h])]
    simp [h]
  · unfold fileAt
    rw [List.find?_cons_of_neg _ (by simp [h])]
    simp [h]

theorem fileAt_setFile_self (fs : FileMap) (p c : String) :
    fileAt (setFile fs p c) p = some c := by
  induction fs with
  | nil => simp [setFile, fileAt]
  | cons e fs ih =>
    by_cases h : e.1 = p
    · simp [setFile, h, fileAt_cons]
    · simp only [setFile, if_neg h]
      rw [fileAt_cons]
      simp [h, ih]

theorem fileAt_setFile_ne (fs : FileMap) (p q c : String) (h : q ≠ p) :
    fileAt (setFile fs p c) q = fileAt fs q := by
  have hpq : p ≠ q := fun hh => h hh.symm
  induction fs with
  | nil => simp [setFile, fileAt_cons, hpq, fileAt]
  | cons e fs ih =>
    by_cases he : e.1 = p
    · subst he
      have hs : setFile (e :: fs) e.1 c = (e.1, c) :: fs := by
        simp [setFile]
      rw [hs, fileAt_cons, fileAt_cons]
      simp [hpq]
    · simp only [setFile, if_neg he]
      rw [fileAt_cons, fileAt_cons]
      by_cases hq : e.1 = q
      · simp [hq]
      · simp [hq, ih]

/-- The fields of one source definition from the registry, as read by
`run_for_source`. -/
structure SourceDef where
  id : String
  url : String
  content_type_expected : String
  notes : String
  server_local_path : String

/-- `RUN_METADATA_SCHEMA_VERSION`. -/
def RUN_METADATA_SCHEMA_VERSION : String := "1.0.0"

/-- A Python `str | None` as a JSON value. -/
def optStr : Option String → JVal
  | none => jnull
  | some s => .jstr s

/-- A Python `int | None` as a JSON value. -/
def optInt : Option Int → JVal
  | none => jnull
  | some n => .jnum n

/-- `_build_metadata(...)`: the metadata record, keys in the dictionary
order of the source. -/
def build_metadata (source_id url content_type_expected notes fetch_status : String)
    (http_status : Option Int) (artifact_sha256 : Option String) : JVal :=
  .jobj [("schema_version", .jstr RUN_METADATA_SCHEMA_VERSION),
         ("source_id", .jstr source_id),
         ("url", .jstr url),
         ("content_type_expected", .jstr content_type_expected),
         ("fetch_status", .jstr fetch_status),
         ("http_status", optInt http_status),
         ("artifact_sha256", optStr artifact_sha256),
         ("notes", .jstr notes)]

/-- What `_fetch_bytes_and_headers(url)` produced for `run_for_source`:
either a body with the transport status and the allow-listed headers, or a
raised exception (file-not-found, unsupported scheme, empty body, or any
`urlopen` error), identified by class name and message. -/
inductive DepFetchOutcome where
  | ok (body : String) (status : Option Int) (headers : List (String × String))
  | exc (typeName msg : String)

/-- `_write_headers_txt`: one `"k: v"` line per header, keys sorted. -/
def headersText (headers : List (String × String)) : String :=
  String.intercalate "\n" ((List.insertionSort keyLE headers).map
    (fun p => p.1 ++ ": " ++ p.2)) ++ "\n"

/-- The metadata record written by the failure branch of `run_for_source`:
status `failed`, `http_status` null (the tuple assignment from
`_fetch_bytes_and_headers` never completed, so the local is still `None`),
and — when an `artifact.bin` already exists in the run directory from an
earlier run — the fingerprint of that stale artifact. -/
def failureMetadata (hash : String → String) (src : SourceDef) (fs : FileMap) : JVal :=
  build_metadata src.id src.url src.content_type_expected src.notes "failed" none
    ((fileAt fs "artifact.bin").map hash)

/-- `run_for_source(...)` in fetch mode, given the fetch outcome: write the
artifact and headers on success, write the metadata record, seal the
directory with `write_run_manifest`, and report the outcome through the
returned `(ok, message)` value (the failure branch catches the exception).
`encode` is the deterministic JSON serializer of `stable_json.write_json`. -/
def run_for_source (hash : String → String) (encode : JVal → String) (src : SourceDef)
    (outcome : DepFetchOutcome) (fs : FileMap) : FileMap × Bool × String :=
  match outcome with
  | .exc tn msg =>
    let metadata := failureMetadata hash src fs
    let fs1 := setFile fs "metadata.json" (encode metadata)
    ((write_run_manifest hash fs1).1, false,
      "FETCH FAILED: " ++ src.id ++ " error_type=" ++ tn ++ " error=" ++ msg)
  | .ok body status headers =>
    let fs1 := setFile fs "artifact.bin" body
    let artifact_sha := hash body
    let fs2 := if headers.isEmpty then fs1 else setFile fs1 "headers.txt" (headersText headers)
    let metadata := build_metadata src.id src.url src.content_type_expected src.notes
        "ok" status (some artifact_sha)
    let fs3 := setFile fs2 "metadata.json" (encode metadata)
    let statusStr := match status with
      | none => ""
      | some n => toString n
    ((write_run_manifest hash fs3).1, true,
      "FETCH OK: " ++ src.id ++ " http_status=" ++ statusStr ++ " sha256="
        ++ (artifact_sha.take 12 ++ "…"))

/-- C3 counterexample: for a run directory still holding a stale
`artifact.bin` from an earlier run, a failed fetch writes a metadata
record with `fetch_status = "failed"` and `artifact_sha256` equal to the
stale artifact's fingerprint rather than null — so "artifact_sha256 is
present only on a successful fetch" is false on the code. -/
theorem run_failed_stale_fingerprint_counterexample :
    pget (failureMetadata (fun s => s) ⟨"dep", "https://x", "text/html", "", "/srv"⟩
        [("artifact.bin", "stale")]) "fetch_status" = jstr "failed"
    ∧ pget (failureMetadata (fun s => s) ⟨"dep", "https://x", "text/html", "", "/srv"⟩
        [("artifact.bin", "stale")]) "artifact_sha256" = jstr "stale"
    ∧ jstr "stale" ≠ jnull := by
  refine ⟨rfl, rfl, fun h => JVal.noConfusion h⟩

/-- C3 (amended): when the fetch for a source fails, `run_for_source`
still writes a metadata record with `fetch_status` "failed", `http_status`
null and `artifact_sha256` the fingerprint of a pre-existing
`artifact.bin` if one is present (null otherwise), still seals the run
directory with a manifest, and reports the failure through the returned
`(false, message)` value instead of raising. -/
theorem run_for_source_failure_seals (hash : String → String) (encode : JVal → String)
    (src : SourceDef) (tn msg : String) (fs : FileMap)
    (hnoart : fileAt fs "artifact.bin" = none) :
    fileAt (run_for_source hash encode src (.exc tn msg) fs).1 "metadata.json" =
        some (encode (failureMetadata hash src fs))
    ∧ fileAt (run_for_source hash encode src (.exc tn msg) fs).1 "manifest.sha256" =
        some (write_run_manifest hash
          (setFile fs "metadata.json" (encode (failureMetadata hash src fs)))).2
    ∧ pget (failureMetadata hash src fs) "fetch_status" = jstr "failed"
    ∧ pget (failureMetadata hash src fs) "http_status" = jnull
    ∧ pget (failureMetadata hash src fs) "artifact_sha256" = jnull
    ∧ (run_for_source hash encode src (.exc tn msg) fs).2.1 = false
    ∧ (run_for_source hash encode src (.exc tn msg) fs).2.2 =
        "FETCH FAILED: " ++ src.id ++ " error_type=" ++ tn ++ " error=" ++ msg := by
  refine ⟨?_, ?_, rfl, rfl, ?_, rfl, rfl⟩
  · show fileAt (write_run_manifest hash
        (setFile fs "metadata.json" (encode (failureMetadata hash src fs)))).1
        "metadata.json" = _
    simp only [write_run_manifest, write_manifest_sha256]
    rw [fileAt_setFile_ne _ _ _ _ (by decide), fileAt_setFile_ne _ _ _ _ (by decide),
      fileAt_setFile_self]
  · show fileAt (write_run_manifest hash
        (setFile fs "metadata.json" (encode (failureMetadata hash src fs)))).1
        "manifest.sha256" = _
    simp only [write_run_manifest, write_manifest_sha256]
    rw [fileAt_setFile_self]
  · simp [failureMetadata, build_metadata, hnoart, pget, JVal.lookup, optStr]

/-- Witness for C3's amended statement: a concrete failed fetch into an
empty run directory. -/
theorem run_for_source_failure_seals_witness :
    (fileAt ([] : FileMap) "artifact.bin" = none)
    ∧ (fileAt (run_for_source (fun s => s) (fun _ => "enc")
          ⟨"dep", "https://x", "text/html", "", "/srv"⟩ (.exc "URLError" "timeout") []).1
          "metadata.json" =
        some ((fun _ : JVal => "enc")
          (failureMetadata (fun s => s) ⟨"dep", "https://x", "text/html", "", "/srv"⟩ []))
      ∧ fileAt (run_for_source (fun s => s) (fun _ => "enc")
          ⟨"dep", "https://x", "text/html", "", "/srv"⟩ (.exc "URLError" "timeout") []).1
          "manifest.sha256" =
        some (write_run_manifest (fun s => s)
          (setFile [] "metadata.json" ((fun _ : JVal => "enc")
            (failureMetadata (fun s => s) ⟨"dep", "https://x", "text/html", "", "/srv"⟩ [])))).2
      ∧ pget (failureMetadata (fun s => s) ⟨"dep", "https://x", "text/html", "", "/srv"⟩ [])
          "fetch_status" = jstr "failed"
      ∧ pget (failureMetadata (fun s => s) ⟨"dep", "https://x", "text/html", "", "/srv"⟩ [])
          "http_status" = jnull
      ∧ pget (failureMetadata (fun s => s) ⟨"dep", "https://x", "text/html", "", "/srv"⟩ [])
          "artifact_sha256" = jnull
      ∧ (run_for_source (fun s => s) (fun _ => "enc")
          ⟨"dep", "https://x", "text/html", "", "/srv"⟩ (.exc "URLError" "timeout") []).2.1 =
          false
      ∧ (run_for_source (fun s => s) (fun _ => "enc")
          ⟨"dep", "https://x", "text/html", "", "/srv"⟩ (.exc "URLError" "timeout") []).2.2 =
        "FETCH FAILED: " ++ "dep" ++ " error_type=" ++ "URLError" ++ " error=" ++ "timeout") :=
  ⟨rfl, run_for_source_failure_seals (fun s => s) (fun _ => "enc")
    ⟨"dep", "https://x", "text/html", "", "/srv"⟩ "URLError" "timeout" [] rfl⟩

/-! ## Verifier (`verify_run_folder` of `tools/dependencies/acquire_and_hash.py`) -/

/-- Lexicographic order on strings, with the instances
`List.insertionSort` needs. -/
def strLE (a b : String) : Prop := a ≤ b

instance : DecidableRel strLE := fun a b =>
  decidable_of_iff (a.toList ≤ b.toList) String.le_iff_toList_le.symm

/-- Strict lexicographic order on strings, decided through the character
list so that concrete comparisons evaluate. -/
def strLT (a b : String) : Prop := a < b

instance : DecidableRel strLT := fun a b =>
  decidable_of_iff (a.toList < b.toList) String.lt_iff_toList_lt.symm

instance : IsTotal String strLE := ⟨fun a b => le_total a b⟩

instance : IsTrans String strLE := ⟨fun _ _ _ h₁ h₂ => le_trans h₁ h₂⟩

/-- Python `d[k] = v` on a dictionary kept as an insertion-ordered
association list: overwrite in place, or append a new key. -/
def assocUpd (m : List (String × String)) (k v : String) : List (String × String) :=
  if m.any (fun e => e.1 == k) then m.map (fun e => if e.1 == k then (k, v) else e)
  else m ++ [(k, v)]

/-- Build a Python dictionary from a pair sequence (later values
overwrite, first-insertion position is kept). -/
def pyDict (pairs : List (String × String)) : List (String × String) :=
  pairs.foldl (fun m p => assocUpd m p.1 p.2) []

/-- Lookup in an insertion-ordered dictionary. -/
def lookupStr (m : List (String × String)) (k : String) : Option String :=
  (m.find? (fun e => e.1 == k)).map (·.2)

/-- One inclusion of Python `d1 == d2` on string dictionaries. -/
def dictLe (d1 d2 : List (String × String)) : Bool :=
  d1.all (fun kv => lookupStr d2 kv.1 == some kv.2)

/-- Python `d1 == d2` on string dictionaries: order-insensitive equality
(sound for dictionaries with distinct keys, as built by `pyDict`). -/
def dictEqv (d1 d2 : List (String × String)) : Bool := dictLe d1 d2 && dictLe d2 d1

/-- The manifest-parsing loop of `verify_run_folder`: strip each line,
skip blanks, fail on a line without a two-space separator, otherwise
collect `(relative path, digest)` in line order. -/
def parseManifestLines : List String → Option (List (String × String))
  | [] => some []
  | raw :: rest =>
    let line := pyStrip raw
    if line = "" then parseManifestLines rest
    else if !(containsTwoSpace line) then none
    else (parseManifestLines rest).map (fun tl =>
      ((splitTwoSpace line).2, (splitTwoSpace line).1) :: tl)

/-- The distinct terminations of `verify_run_folder`: normal return, or
one of its `FileNotFoundError` / `ValueError` raises. -/
inductive VerifyOutcome where
  | ok
  | runFolderMissing
  | missingRequired (p : String)
  | metadataInvalid
  | metadataShaMismatch
  | malformedManifestLine
  | manifestMismatch
  | manifestUnsorted
  deriving DecidableEq

/-- `verify_run_folder(run_dir)`: require `artifact.bin`, `metadata.json`
and `manifest.sha256` (in that order) before any comparison; then check
the metadata fingerprint against the artifact, recompute the directory's
fingerprints minus `{manifest.sha256, run_summary.json}`, compare with the
parsed manifest as dictionaries, and finally check the manifest's path
order.  `parseJson` stands for `json.loads` (`none` = parse failure) and
the following non-dictionary check of `_read_json`. -/
def verify_run_folder (hash : String → String) (parseJson : String → Option JVal)
    (dirExists : Bool) (fs : FileMap) : VerifyOutcome :=
  if !dirExists then .runFolderMissing
  else match fileAt fs "artifact.bin" with
  | none => .missingRequired "artifact.bin"
  | some artifactContent =>
    match fileAt fs "metadata.json" with
    | none => .missingRequired "metadata.json"
    | some metaText =>
      match fileAt fs "manifest.sha256" with
      | none => .missingRequired "manifest.sha256"
      | some manText =>
        match parseJson metaText with
        | none => .metadataInvalid
        | some metadata =>
          if !metadata.isObj then .metadataInvalid
          else if !((pget metadata "artifact_sha256").beq (jstr (hash artifactContent))) then
            .metadataShaMismatch
          else
            let expected := pyDict ((fs.filter (fun e =>
              !(e.1 == "manifest.sha256" || e.1 == "run_summary.json"))).map
                (fun e => (e.1, hash e.2)))
            match parseManifestLines (splitLines manText) with
            | none => .malformedManifestLine
            | some pairs =>
              let manEntries := pyDict pairs
              if !(dictEqv manEntries expected) then .manifestMismatch
              else if manEntries.map Prod.fst =
                  List.insertionSort strLE (manEntries.map Prod.fst) then .ok
              else .manifestUnsorted

/-- C10: `verify_run_folder` demands `artifact.bin`, `metadata.json` and
`manifest.sha256` before any fingerprint comparison, so any run directory
without `artifact.bin` — in particular one sealed by the failure branch of
`run_for_source`, whatever its metadata and manifest contain — fails
verification with the missing-required-file error for `artifact.bin`. -/
theorem verify_requires_artifact (hash : String → String) (parseJson : String → Option JVal)
    (encode : JVal → String) (src : SourceDef) (tn msg : String) (fs : FileMap)
    (hnoart : fileAt fs "artifact.bin" = none) :
    verify_run_folder hash parseJson true fs = .missingRequired "artifact.bin"
    ∧ verify_run_folder hash parseJson true
        ((run_for_source hash encode src (.exc tn msg) fs).1) =
      .missingRequired "artifact.bin" := by
  constructor
  · simp [verify_run_folder, hnoart]
  · have hart : fileAt ((run_for_source hash encode src (.exc tn msg) fs).1)
        "artifact.bin" = none := by
      show fileAt (write_run_manifest hash (setFile fs "metadata.json" _)).1 "artifact.bin" = none
      simp only [write_run_manifest, write_manifest_sha256]
      rw [fileAt_setFile_ne _ _ _ _ (by decide), fileAt_setFile_ne _ _ _ _ (by decide),
        fileAt_setFile_ne _ _ _ _ (by decide)]
      exact hnoart
    simp [verify_run_folder, hart]

/-- Witness for C10: a directory holding only metadata and a manifest
(exactly what a failed fetch into a fresh directory leaves behind). -/
theorem verify_requires_artifact_witness :
    (fileAt [("metadata.json", "{}")] "artifact.bin" = none)
    ∧ (verify_run_folder (fun s => s) (fun _ => none) true [("metadata.json", "{}")] =
        .missingRequired "artifact.bin"
      ∧ verify_run_folder (fun s => s) (fun _ => none) true
          ((run_for_source (fun s => s) (fun _ => "enc")
            ⟨"dep", "https://x", "text/html", "", "/srv"⟩ (.exc "URLError" "timeout")
            [("metadata.json", "{}")]).1) =
        .missingRequired "artifact.bin") :=
  ⟨rfl, verify_requires_artifact (fun s => s) (fun _ => none) (fun _ => "enc")
    ⟨"dep", "https://x", "text/html", "", "/srv"⟩ "URLError" "timeout"
    [("metadata.json", "{}")] rfl⟩

/-! ## Document mirror metadata finalisation (`run_mirror`, lines 558-580) -/

/-- Ordering of canonicalised object fields (the effect of
`json.dumps(..., sort_keys=True)`). -/
def keyLEJ (a b : String × JVal) : Prop := a.1 ≤ b.1

instance : DecidableRel keyLEJ := fun a b =>
  decidable_of_iff (a.1.toList ≤ b.1.toList) String.le_iff_toList_le.symm

instance : IsTotal (String × JVal) keyLEJ := ⟨fun a b => le_total a.1 b.1⟩

instance : IsTrans (String × JVal) keyLEJ := ⟨fun _ _ _ h₁ h₂ => le_trans h₁ h₂⟩

mutual

/-- Canonical form of a JSON value: object keys sorted recursively.  Two
parsed values have the same `json.dumps(..., sort_keys=True)` serialization
exactly when their canonical forms agree, so `dumps`-based fingerprints and
file bytes are modelled as functions of `canon`. -/
def canon : JVal → JVal
  | .jobj fields => .jobj (List.insertionSort keyLEJ (canonFields fields))
  | .jarr xs => .jarr (canonList xs)
  | .jnull => .jnull
  | .jbool b => .jbool b
  | .jnum n => .jnum n
  | .jstr s => .jstr s

/-- Canonical forms of the elements of a JSON array. -/
def canonList : List JVal → List JVal
  | [] => []
  | x :: xs => canon x :: canonList xs

/-- Canonical forms of the values of an object's fields. -/
def canonFields : List (String × JVal) → List (String × JVal)
  | [] => []
  | (k, v) :: xs => (k, canon v) :: canonFields xs

end

/-- `stable = dict(metadata); stable.pop("run", None)` of
`_stable_fingerprint`. -/
def stripRun (v : JVal) : JVal :=
  match v with
  | .jobj fields => .jobj (fields.filter (fun p => !(p.1 == "run")))
  | v => v

/-- `_stable_fingerprint(metadata)`: sha256 of the compact
`sort_keys=True` serialization of the metadata without its `run` block.
`hash2` is the uninterpreted composition of the serializer and sha256; it
is applied to the canonical form, which the sorted serialization
determines. -/
def stable_fingerprint (hash2 : JVal → String) (metadata : JVal) : String :=
  hash2 (canon (stripRun metadata))

/-- Python `d[k] = x` on a JSON object. -/
def setKey (v : JVal) (k : String) (x : JVal) : JVal :=
  match v with
  | .jobj fields =>
    if fields.any (fun p => p.1 == k) then
      .jobj (fields.map (fun p => if p.1 == k then (k, x) else p))
    else .jobj (fields ++ [(k, x)])
  | v => v

/-- The `run_info` dictionary of `run_mirror`, in its literal key order. -/
def mirrorRunInfo (runDate : String) (started finished : JVal) (gitSha : String) :
    List (String × JVal) :=
  [("run_date", .jstr runDate), ("started_at_utc", started),
   ("finished_at_utc", finished), ("git_sha", .jstr gitSha)]

/-- Lines 558-580 of `run_mirror`: build the fresh `run_info`; if an
existing `metadata.json` parses, has the same stable fingerprint as the
new metadata and has a `run` block, keep the existing block's
`started_at_utc` / `finished_at_utc` (with the fresh values as `dict.get`
defaults); attach the block under the `run` key.  A non-dictionary `run`
value makes the guarded lookup raise, which the code swallows, keeping the
fresh values. -/
def finalizeRunMetadata (hash2 : JVal → String) (existing : Option JVal) (metadata : JVal)
    (runDate started finished gitSha : String) : JVal :=
  let runInfo0 := mirrorRunInfo runDate (.jstr started) (.jstr finished) gitSha
  let runInfo :=
    match existing with
    | none => runInfo0
    | some e =>
      if stable_fingerprint hash2 e = stable_fingerprint hash2 metadata ∧ e.hasKey "run" then
        match e.lookup "run" with
        | some (.jobj eruns) =>
          mirrorRunInfo runDate
            (dictGetD (.jobj eruns) "started_at_utc" (.jstr started))
            (dictGetD (.jobj eruns) "finished_at_utc" (.jstr finished)) gitSha
        | _ => runInfo0
      else runInfo0
  setKey metadata "run" (.jobj runInfo)

theorem canonFields_eq_map (l : List (String × JVal)) :
    canonFields l = l.map (fun p => (p.1, canon p.2)) := by
  induction l with
  | nil => rfl
  | cons e l ih =>
    cases e with
    | mk k v => simp [canonFields, ih]

theorem sorted_eq_of_perm_of_nodup_keys :
    ∀ (l₁ l₂ : List (String × JVal)), l₁.Perm l₂ →
      List.Sorted keyLEJ l₁ → List.Sorted keyLEJ l₂ →
      (l₁.map Prod.fst).Nodup → l₁ = l₂
  | [], l₂, hp, _, _, _ => hp.nil_eq
  | a :: t₁, [], hp, _, _, _ => absurd hp.symm.nil_eq (by simp)
  | a :: t₁, b :: t₂, hp, hs₁, hs₂, hnd => by
    have hab : a = b := by
      have hbl₁ : b ∈ a :: t₁ := hp.mem_iff.2 (List.mem_cons_self _ _)
      have hal₂ : a ∈ b :: t₂ := hp.mem_iff.1 (List.mem_cons_self _ _)
      rcases List.mem_cons.1 hbl₁ with hba | hbt₁
      · exact hba.symm
      rcases List.mem_cons.1 hal₂ with hab | hat₂
      · exact hab
      · have h₁ : a.1 ≤ b.1 := (List.rel_of_sorted_cons hs₁) b hbt₁
        have h₂ : b.1 ≤ a.1 := (List.rel_of_sorted_cons hs₂) a hat₂
        have hkeys : a.1 = b.1 := le_antisymm h₁ h₂
        exfalso
        have : a.1 ∈ t₁.map Prod.fst := hkeys ▸ List.mem_map_of_mem Prod.fst hbt₁
        exact (List.nodup_cons.1 hnd).1 this
    subst hab
    have htails : t₁.Perm t₂ := hp.cons_inv
    have : t₁ = t₂ :=
      sorted_eq_of_perm_of_nodup_keys t₁ t₂ htails hs₁.of_cons hs₂.of_cons
        (List.nodup_cons.1 hnd).2
    rw [this]

theorem perm_extract_key :
    ∀ (l : List (String × JVal)) (k : String) (v : JVal),
      (l.map Prod.fst).Nodup →
      l.find? (fun p => p.1 == k) = some (k, v) →
      l.Perm ((k, v) :: l.filter (fun p => !(p.1 == k)))
  | [], _, _, _, hfind => by simp at hfind
  | e :: t, k, v, hnd, hfind => by
    by_cases pe : e.1 = k
    · rw [List.find?_cons_of_pos _ (by simp [pe])] at hfind
      have he : e = (k, v) := Option.some.inj hfind
      have hkeys : k ∉ t.map Prod.fst := by
        have := (List.nodup_cons.1 hnd).1
        rw [he] at this
        exact this
      have hfil : t.filter (fun p => !(p.1 == k)) = t := by
        rw [List.filter_eq_self]
        intro p hp
        simp only [Bool.not_eq_true']
        by_contra hcon
        simp only [Bool.not_eq_false, beq_iff_eq] at hcon
        exact hkeys (hcon ▸ List.mem_map_of_mem Prod.fst hp)
      rw [List.filter_cons_of_neg (by simp [pe]), hfil, he]
    · rw [List.find?_cons_of_neg _ (by simp [pe])] at hfind
      have ih := perm_extract_key t k v (List.nodup_cons.1 hnd).2 hfind
      rw [List.filter_cons_of_pos (by simp [pe])]
      exact (ih.cons e).trans (List.Perm.swap _ _ _)

theorem hasKey_false_find_none (mfs : List (String × JVal)) (k : String)
    (h : (JVal.jobj mfs).hasKey k = false) :
    ∀ p ∈ mfs, ¬ (p.1 == k) = true := by
  intro p hp
  simp only [JVal.hasKey, JVal.lookup] at h
  cases hf : mfs.find? (fun q => q.1 == k) with
  | none =>
    rw [List.find?_eq_none] at hf
    exact hf p hp
  | some pr =>
    rw [hf] at h
    simp at h

theorem stripRun_of_hasKey_false (mfs : List (String × JVal))
    (h : (JVal.jobj mfs).hasKey "run" = false) :
    stripRun (.jobj mfs) = .jobj mfs := by
  simp only [stripRun, JVal.jobj.injEq]
  rw [List.filter_eq_self]
  intro p hp
  simpa using hasKey_false_find_none mfs "run" h p hp

theorem setKey_of_hasKey_false (mfs : List (String × JVal)) (k : String) (x : JVal)
    (h : (JVal.jobj mfs).hasKey k = false) :
    setKey (.jobj mfs) k x = .jobj (mfs ++ [(k, x)]) := by
  simp only [setKey]
  rw [if_neg]
  simp only [List.any_eq_true]
  rintro ⟨p, hp, hpk⟩
  exact hasKey_false_find_none mfs k h p hp hpk

theorem canon_obj_eq_of_fields_perm (l₁ l₂ : List (String × JVal))
    (hp : (canonFields l₁).Perm (canonFields l₂))
    (hnd : (l₁.map Prod.fst).Nodup) :
    canon (.jobj l₁) = canon (.jobj l₂) := by
  show JVal.jobj _ = JVal.jobj _
  congr 1
  refine sorted_eq_of_perm_of_nodup_keys _ _ ?_ ?_ ?_ ?_
  · exact (List.perm_insertionSort _ _).trans (hp.trans (List.perm_insertionSort _ _).symm)
  · exact List.sorted_insertionSort _ _
  · exact List.sorted_insertionSort _ _
  · have hkp : ((List.insertionSort keyLEJ (canonFields l₁)).map Prod.fst).Perm
        (l₁.map Prod.fst) := by
      have h0 := (List.perm_insertionSort keyLEJ (canonFields l₁)).map Prod.fst
      refine h0.trans ?_
      rw [canonFields_eq_map, List.map_map]
      exact List.Perm.refl _
    exact hkp.nodup_iff.2 hnd

theorem canon_append_run_eq (mfs efs rfs : List (String × JVal)) (ri : JVal)
    (hri : canon ri = canon (.jobj rfs))
    (hfind : efs.find? (fun p => p.1 == "run") = some ("run", .jobj rfs))
    (hnd : (efs.map Prod.fst).Nodup)
    (hndm : (mfs.map Prod.fst).Nodup)
    (hnorunm : (JVal.jobj mfs).hasKey "run" = false)
    (hsorteq : List.insertionSort keyLEJ
        (canonFields (efs.filter (fun p => !(p.1 == "run")))) =
      List.insertionSort keyLEJ (canonFields mfs)) :
    canon (.jobj (mfs ++ [("run", ri)])) = canon (.jobj efs) := by
  apply canon_obj_eq_of_fields_perm
  · have hefsperm := perm_extract_key efs "run" (.jobj rfs) hnd hfind
    have hfiltperm : (canonFields (efs.filter (fun p => !(p.1 == "run")))).Perm
        (canonFields mfs) := by
      have h1 := (List.perm_insertionSort keyLEJ
        (canonFields (efs.filter (fun p => !(p.1 == "run"))))).symm
      rw [hsorteq] at h1
      exact h1.trans (List.perm_insertionSort _ _)
    rw [canonFields_eq_map, canonFields_eq_map, List.map_append]
    have s1 : ((mfs.map (fun p => (p.1, canon p.2))) ++
        ([("run", ri)].map (fun p => (p.1, canon p.2)))).Perm
        (("run", canon ri) :: mfs.map (fun p => (p.1, canon p.2))) := by
      simp only [List.map_cons, List.map_nil]
      exact List.perm_append_singleton _ _
    refine s1.trans ?_
    rw [hri]
    have s2 : (mfs.map (fun p => (p.1, canon p.2))).Perm
        ((efs.filter (fun p => !(p.1 == "run"))).map (fun p => (p.1, canon p.2))) := by
      have h3 := hfiltperm.symm
      rwa [canonFields_eq_map, canonFields_eq_map] at h3
    have s3 : (("run", canon (.jobj rfs)) ::
        (efs.filter (fun p => !(p.1 == "run"))).map (fun p => (p.1, canon p.2))).Perm
        (efs.map (fun p => (p.1, canon p.2))) := by
      have h4 := (hefsperm.map (fun p : String × JVal => (p.1, canon p.2))).symm
      simpa using h4
    exact (s2.cons _).trans s3
  · rw [List.map_append, List.nodup_append]
    refine ⟨hndm, by simp, ?_⟩
    intro a ha
    simp only [List.map_cons, List.map_nil, List.mem_singleton]
    intro hrun
    subst hrun
    rcases List.mem_map.1 ha with ⟨p, hp, hpk⟩
    exact hasKey_false_find_none mfs "run" hnorunm p hp (by simp [hpk])

/-- C4: if a repeated `run_mirror` invocation produces metadata whose
non-volatile content equals the existing record's (same stable
fingerprint input), the written record keeps the first invocation's
`started_at_utc` / `finished_at_utc` instead of the fresh timestamps; and
when the existing `run` block moreover carries the same `run_date` and
`git_sha` (a genuine no-op re-run), the finalised record is canonically
equal to the existing one, so the deterministic serializer writes
byte-identical `metadata.json` output. -/
theorem run_timestamps_preserved (hash2 : JVal → String)
    (mfs efs rfs : List (String × JVal)) (runDate started finished gitSha : String)
    (hlook : JVal.lookup (.jobj efs) "run" = some (.jobj rfs))
    (hnorunm : (JVal.jobj mfs).hasKey "run" = false)
    (hnd : (efs.map Prod.fst).Nodup)
    (hndm : (mfs.map Prod.fst).Nodup)
    (hstable : canon (stripRun (.jobj efs)) = canon (stripRun (.jobj mfs))) :
    finalizeRunMetadata hash2 (some (.jobj efs)) (.jobj mfs) runDate started finished gitSha =
      .jobj (mfs ++ [("run", .jobj (mirrorRunInfo runDate
        (dictGetD (.jobj rfs) "started_at_utc" (.jstr started))
        (dictGetD (.jobj rfs) "finished_at_utc" (.jstr finished)) gitSha))])
    ∧ (canon (.jobj rfs) = canon (.jobj (mirrorRunInfo runDate
          (dictGetD (.jobj rfs) "started_at_utc" (.jstr started))
          (dictGetD (.jobj rfs) "finished_at_utc" (.jstr finished)) gitSha)) →
        canon (finalizeRunMetadata hash2 (some (.jobj efs)) (.jobj mfs)
          runDate started finished gitSha) = canon (.jobj efs)) := by
  have hkey : (JVal.jobj efs).hasKey "run" = true := by
    simp [JVal.hasKey, hlook]
  have hfp : stable_fingerprint hash2 (.jobj efs) = stable_fingerprint hash2 (.jobj mfs) := by
    simp [stable_fingerprint, hstable]
  have hfin : finalizeRunMetadata hash2 (some (.jobj efs)) (.jobj mfs)
      runDate started finished gitSha =
      .jobj (mfs ++ [("run", .jobj (mirrorRunInfo runDate
        (dictGetD (.jobj rfs) "started_at_utc" (.jstr started))
        (dictGetD (.jobj rfs) "finished_at_utc" (.jstr finished)) gitSha))]) := by
    simp only [finalizeRunMetadata, hfp, hkey, and_true, if_pos rfl, hlook]
    exact setKey_of_hasKey_false _ _ _ hnorunm
  refine ⟨hfin, fun hri => ?_⟩
  rw [hfin]
  have hfind : efs.find? (fun p => p.1 == "run") = some ("run", .jobj rfs) := by
    simp only [JVal.lookup] at hlook
    cases hof : efs.find? (fun p => p.1 == "run") with
    | none =>
      rw [hof] at hlook
      simp at hlook
    | some pr =>
      cases pr with
      | mk a b =>
        rw [hof] at hlook
        have hk : a = "run" := by simpa using List.find?_some hof
        have hv : b = JVal.jobj rfs := by simpa using hlook
        rw [hk, hv]
  have hstripm : stripRun (.jobj mfs) = .jobj mfs := stripRun_of_hasKey_false mfs hnorunm
  have hsorteq : List.insertionSort keyLEJ
      (canonFields (efs.filter (fun p => !(p.1 == "run")))) =
      List.insertionSort keyLEJ (canonFields mfs) := by
    have h5 := hstable
    rw [hstripm] at h5
    simpa [stripRun, canon] using h5
  exact canon_append_run_eq mfs efs rfs _ hri.symm hfind hnd hndm hnorunm hsorteq

/-- Witness for C4 at a concrete pair of metadata records: second run with
fresh timestamps keeps the first run's timestamps and reproduces the
existing record canonically. -/
theorem run_timestamps_preserved_witness :
    (JVal.lookup (.jobj [("celex", .jstr "32023R1115"),
        ("run", .jobj (mirrorRunInfo "2026-01-21" (.jstr "t1") (.jstr "t2") "g1"))]) "run" =
      some (.jobj (mirrorRunInfo "2026-01-21" (.jstr "t1") (.jstr "t2") "g1")))
    ∧ (finalizeRunMetadata (fun _ => "fp")
        (some (.jobj [("celex", .jstr "32023R1115"),
          ("run", .jobj (mirrorRunInfo "2026-01-21" (.jstr "t1") (.jstr "t2") "g1"))]))
        (.jobj [("celex", .jstr "32023R1115")]) "2026-01-21" "t3" "t4" "g1" =
      .jobj ([("celex", .jstr "32023R1115")] ++ [("run", .jobj (mirrorRunInfo "2026-01-21"
        (dictGetD (.jobj (mirrorRunInfo "2026-01-21" (.jstr "t1") (.jstr "t2") "g1"))
          "started_at_utc" (.jstr "t3"))
        (dictGetD (.jobj (mirrorRunInfo "2026-01-21" (.jstr "t1") (.jstr "t2") "g1"))
          "finished_at_utc" (.jstr "t4")) "g1"))])) :=
  ⟨rfl,
    (run_timestamps_preserved (fun _ => "fp") [("celex", .jstr "32023R1115")]
      [("celex", .jstr "32023R1115"),
        ("run", .jobj (mirrorRunInfo "2026-01-21" (.jstr "t1") (.jstr "t2") "g1"))]
      (mirrorRunInfo "2026-01-21" (.jstr "t1") (.jstr "t2") "g1")
      "2026-01-21" "t3" "t4" "g1" rfl rfl (by simp) (by simp) rfl).1⟩

/-! ## Drift detector (`_compute_needs_update` of the mirror script) -/

mutual

/-- `JVal.beq` is reflexive (a value compares equal to itself). -/
theorem JVal.beq_refl : ∀ v : JVal, JVal.beq v v = true
  | .jnull => rfl
  | .jbool b => by simp [JVal.beq]
  | .jnum n => by simp [JVal.beq]
  | .jstr s => by simp [JVal.beq]
  | .jarr xs => by simp [JVal.beq, beqJList_refl xs]
  | .jobj fs => by simp [JVal.beq, beqJFields_refl fs]

/-- `beqJList` is reflexive. -/
theorem beqJList_refl : ∀ xs : List JVal, beqJList xs xs = true
  | [] => rfl
  | x :: xs => by simp [beqJList, JVal.beq_refl x, beqJList_refl xs]

/-- `beqJFields` is reflexive. -/
theorem beqJFields_refl : ∀ fs : List (String × JVal), beqJFields fs fs = true
  | [] => rfl
  | (k, v) :: fs => by simp [beqJFields, JVal.beq_refl v, beqJFields_refl fs]

end

/-- The files the drift detector reads from one dated mirror run
directory: `entrypoint_status.json` and `metadata.json` as parsed by the
tolerant `_read_json` (`none` = missing or unparseable). -/
structure MirrorRunData where
  entry : Option JVal
  meta : Option JVal

/-- `DATE_DIR_RE`: `^\d{4}-\d{2}-\d{2}$`. -/
def isDateDirName (s : String) : Bool :=
  match s.toList with
  | [a, b, c, d, e, f, g, h, i, j] =>
    a.isDigit && b.isDigit && c.isDigit && d.isDigit && e == '-' &&
    f.isDigit && g.isDigit && h == '-' && i.isDigit && j.isDigit
  | _ => false

/-- `_iter_date_run_dirs(out_base)`: sorted names of date-formatted child
directories.  `outBase` lists the child directories with their contents. -/
def iterDateRunDirs (outBase : List (String × MirrorRunData)) : List String :=
  List.insertionSort strLE ((outBase.filter (fun d => isDateDirName d.1)).map Prod.fst)

/-- `_latest_prior_run_date(out_base, run_date)`. -/
def latestPriorRunDate (outBase : List (String × MirrorRunData)) (runDate : String) :
    Option String :=
  ((iterDateRunDirs outBase).filter (fun d => decide (strLT d runDate))).getLast?

/-- Contents of the named child run directory (missing files for an
unknown name, which `latestPriorRunDate` never produces). -/
def runDataAt (outBase : List (String × MirrorRunData)) (name : String) : MirrorRunData :=
  ((outBase.find? (fun d => d.1 == name)).map Prod.snd).getD ⟨none, none⟩

/-- Python `sorted(set(xs))` on reason strings. -/
def sortedDedup (xs : List String) : List String := List.insertionSort strLE xs.dedup

/-- The reason list accumulated by the body of `_compute_needs_update`
once a previous run exists (lines 209-262), in the code's append order. -/
def driftReasons (prevEntry prevMeta : Option JVal) (entrypointStatus extractedFields : JVal) :
    List String :=
  let curReachable := (pget entrypointStatus "reachable").truthy
  let prevEntryObj : Option JVal :=
    match prevEntry with
    | some e => if e.isObj then some e else none
    | none => none
  let prevReachable :=
    match prevEntryObj with
    | some e => (pget e "reachable").truthy
    | none => false
  let branchReasons :=
    if curReachable && prevEntryObj.isSome && prevReachable then
      let curE := orEmptyObj (pget entrypointStatus "evidence")
      let prevE :=
        match prevEntryObj with
        | some e => orEmptyObj (pget e "evidence")
        | none => orEmptyObj jnull
      (if !(JVal.beq (pget curE "lsu_entry_sha256") (pget prevE "lsu_entry_sha256")) then
        ["lsu_sha256_changed"] else []) ++
      (if !(JVal.beq (pget curE "lsu_updated_on") (pget prevE "lsu_updated_on")) then
        ["lsu_updated_on_changed"] else [])
    else
      let curFb := pget (orEmptyObj (pget entrypointStatus "evidence")) "fallback"
      let prevFb :=
        match prevEntry with
        | some e => if e.isObj then pget (orEmptyObj (pget e "evidence")) "fallback" else jnull
        | none => jnull
      (if !(JVal.beq (jpathGet curFb ["pdf", "sha256"]) (jpathGet prevFb ["pdf", "sha256"])) then
        ["lsu_unreachable_but_pdf_sha256_changed"] else []) ++
      (if !(JVal.beq (jpathGet curFb ["html", "sha256"]) (jpathGet prevFb ["html", "sha256"])) then
        ["lsu_unreachable_but_html_sha256_changed"] else []) ++
      (if !(JVal.beq (jpathGet curFb ["eli_oj", "sha256"])
          (jpathGet prevFb ["eli_oj", "sha256"])) then
        ["lsu_unreachable_but_eli_oj_sha256_changed"] else []) ++
      (if !(JVal.beq (jpathGet curFb ["pdf", "etag"]) (jpathGet prevFb ["pdf", "etag"])) then
        ["lsu_unreachable_but_pdf_etag_changed"] else []) ++
      (if !(JVal.beq (jpathGet curFb ["pdf", "last_modified"])
          (jpathGet prevFb ["pdf", "last_modified"])) then
        ["lsu_unreachable_but_pdf_last_modified_changed"] else [])
  let prevSummary :=
    match prevMeta with
    | some m => if m.isObj then pget (orEmptyObj (pget m "extracted_fields")) "summary_last_update"
        else jnull
    | none => jnull
  let summaryReasons :=
    if !(JVal.beq (pget extractedFields "summary_last_update") prevSummary) then
      ["summary_last_update_changed"] else []
  let gateReasons :=
    match pget extractedFields "content_gate_failures" with
    | .jarr items => items.filterMap (fun it =>
        match it with
        | .jstr s => if s ≠ "" then some s else none
        | _ => none)
    | _ => []
  branchReasons ++ summaryReasons ++ gateReasons

/-- `_compute_needs_update(out_base, run_date, entrypoint_status,
extracted_fields)`: `(needs_update, sorted(set(reasons)), prev_date)`. -/
def compute_needs_update (outBase : List (String × MirrorRunData)) (runDate : String)
    (entrypointStatus extractedFields : JVal) : Bool × List String × Option String :=
  match latestPriorRunDate outBase runDate with
  | none => (true, ["no_previous_run"], none)
  | some prevDate =>
    let prevData := runDataAt outBase prevDate
    let reasons := driftReasons prevData.entry prevData.meta entrypointStatus extractedFields
    (decide (0 < reasons.length), sortedDedup reasons, some prevDate)

/-- Lines 550-556 of `run_mirror`: the trigger document is written to
`digital_twin_trigger.json` iff `needs_update`; `none` means no write. -/
def mirrorTrigger (needsUpdate : Bool) (reasons : List String) (prevDate : Option String)
    (runDate : String) : Option JVal :=
  if needsUpdate then
    some (.jobj [("reason", .jarr (reasons.map JVal.jstr)),
      ("previous_run", optStr prevDate), ("current_run", .jstr runDate)])
  else none

theorem pget_of_not_obj (v : JVal) (k : String) (h : v.isObj = false) : pget v k = jnull := by
  cases v <;> simp_all [pget, JVal.lookup, JVal.isObj]

theorem sortedDedup_eq_nil_iff (xs : List String) : sortedDedup xs = [] ↔ xs = [] := by
  unfold sortedDedup
  constructor
  · intro h
    have hlen := congrArg List.length h
    rw [List.length_insertionSort] at hlen
    exact (List.dedup_eq_nil xs).1 (List.length_eq_zero.1 hlen)
  · rintro rfl
    rfl

theorem compute_needs_update_spec (ob : List (String × MirrorRunData)) (rd : String)
    (es ex : JVal) :
    ((compute_needs_update ob rd es ex).1 = true ↔ (compute_needs_update ob rd es ex).2.1 ≠ [])
    ∧ List.Sorted (· ≤ ·) (compute_needs_update ob rd es ex).2.1
    ∧ (compute_needs_update ob rd es ex).2.1.Nodup := by
  cases hlp : latestPriorRunDate ob rd with
  | none => simp [compute_needs_update, hlp]
  | some pd =>
    simp only [compute_needs_update, hlp]
    refine ⟨?_, ?_, ?_⟩
    · rw [decide_eq_true_iff, List.length_pos]
      exact (not_iff_not.2 (sortedDedup_eq_nil_iff _)).symm
    · exact List.sorted_insertionSort strLE _
    · exact (List.perm_insertionSort strLE _).nodup_iff.2 (List.nodup_dedup _)

theorem mirrorTrigger_spec (b : Bool) (rs : List String) (pd : Option String) (rd : String) :
    ((mirrorTrigger b rs pd rd).isSome ↔ b = true)
    ∧ (b = true → mirrorTrigger b rs pd rd =
        some (.jobj [("reason", .jarr (rs.map JVal.jstr)), ("previous_run", optStr pd),
          ("current_run", .jstr rd)])) := by
  cases b <;> simp [mirrorTrigger]

theorem driftReasons_self (E M xf : JVal) (hM : M.isObj = true)
    (hxf : pget M "extracted_fields" = xf) (hxft : xf.truthy = true)
    (hgates : pget xf "content_gate_failures" = .jarr []) :
    driftReasons (some E) (some M) E xf = [] := by
  have hsummary : pget (orEmptyObj (pget M "extracted_fields")) "summary_last_update" =
      pget xf "summary_last_update" := by
    rw [hxf, orEmptyObj, if_pos hxft]
  by_cases hE : E.isObj = true
  · simp [driftReasons, hE, hM, hsummary, hgates, JVal.beq_refl]
  · have hEf : E.isObj = false := by simpa using hE
    simp [driftReasons, hEf, hM, hsummary, hgates, JVal.beq_refl, pget_of_not_obj E _ hEf]
    exact ⟨rfl, rfl, rfl, rfl, rfl⟩

/-- Fixture: a stored `entrypoint_status.json` of an unreachable run. -/
def c6PrevEntry : JVal := .jobj [("reachable", .jbool false)]

/-- Fixture: the `extracted_fields` block with a given content-gate list. -/
def c6Extracted (gates : List JVal) : JVal :=
  .jobj [("summary_last_update", .jstr "22.5.2025"), ("content_gate_failures", .jarr gates)]

/-- Fixture: a stored mirror `metadata.json`. -/
def c6PrevMeta (gates : List JVal) : JVal := .jobj [("extracted_fields", c6Extracted gates)]

/-- Fixture: an `out_base` holding exactly one earlier sealed run. -/
def c6OutBase (gates : List JVal) : List (String × MirrorRunData) :=
  [("2026-01-20", ⟨some c6PrevEntry, some (c6PrevMeta gates)⟩)]

/-- C6 counterexample: for two byte-identical runs that both record a
content-gate failure, the reason set is non-empty and `needsUpdate` is
true (the gate reasons are re-emitted on every run irrespective of the
previous run), and the trigger that gets written carries only `reason`,
`previous_run` and `current_run` — no fingerprint fields at all. -/
theorem mirror_trigger_counterexample :
    compute_needs_update (c6OutBase [.jstr "pdf_unexpected_signature"]) "2026-01-21"
        c6PrevEntry (c6Extracted [.jstr "pdf_unexpected_signature"]) =
      (true, ["pdf_unexpected_signature"], some "2026-01-20")
    ∧ mirrorTrigger true ["pdf_unexpected_signature"] (some "2026-01-20") "2026-01-21" =
      some (.jobj [("reason", .jarr [.jstr "pdf_unexpected_signature"]),
        ("previous_run", .jstr "2026-01-20"), ("current_run", .jstr "2026-01-21")])
    ∧ (JVal.jobj [("reason", .jarr [.jstr "pdf_unexpected_signature"]),
        ("previous_run", .jstr "2026-01-20"),
        ("current_run", .jstr "2026-01-21")]).hasKey "previous_lsu_sha256" = false
    ∧ ([("reason", JVal.jarr [.jstr "pdf_unexpected_signature"]),
        ("previous_run", JVal.jstr "2026-01-20"),
        ("current_run", JVal.jstr "2026-01-21")].map Prod.fst) =
      ["reason", "previous_run", "current_run"] :=
  ⟨by decide, rfl, rfl, rfl⟩

/-- C6 (amended): `needsUpdate` is true iff the reason set is non-empty;
the reason list is sorted and de-duplicated; a trigger is written iff
`needsUpdate`, and it contains the reason list with the previous and
current run identifiers (the mirror trigger carries no fingerprints); and
for two identical runs whose shared `extracted_fields` record no
content-gate failures, the reason set is empty, `needsUpdate` is false and
no trigger is written. -/
theorem drift_no_trigger_when_unchanged (outBase : List (String × MirrorRunData))
    (runDate pd : String) (E M xf : JVal)
    (hprev : latestPriorRunDate outBase runDate = some pd)
    (hdata : runDataAt outBase pd = ⟨some E, some M⟩)
    (hM : M.isObj = true)
    (hxf : pget M "extracted_fields" = xf)
    (hxft : xf.truthy = true)
    (hgates : pget xf "content_gate_failures" = .jarr []) :
    (∀ (ob : List (String × MirrorRunData)) (rd : String) (es ex : JVal),
      ((compute_needs_update ob rd es ex).1 = true ↔ (compute_needs_update ob rd es ex).2.1 ≠ [])
      ∧ List.Sorted (· ≤ ·) (compute_needs_update ob rd es ex).2.1
      ∧ (compute_needs_update ob rd es ex).2.1.Nodup
      ∧ ((mirrorTrigger (compute_needs_update ob rd es ex).1
            (compute_needs_update ob rd es ex).2.1
            (compute_needs_update ob rd es ex).2.2 rd).isSome ↔
          (compute_needs_update ob rd es ex).1 = true)
      ∧ ((compute_needs_update ob rd es ex).1 = true →
          mirrorTrigger (compute_needs_update ob rd es ex).1
            (compute_needs_update ob rd es ex).2.1
            (compute_needs_update ob rd es ex).2.2 rd =
          some (.jobj [("reason", .jarr ((compute_needs_update ob rd es ex).2.1.map JVal.jstr)),
            ("previous_run", optStr (compute_needs_update ob rd es ex).2.2),
            ("current_run", .jstr rd)])))
    ∧ compute_needs_update outBase runDate E xf = (false, [], some pd)
    ∧ mirrorTrigger false [] (some pd) runDate = none := by
  refine ⟨?_, ?_, rfl⟩
  · intro ob rd es ex
    exact ⟨(compute_needs_update_spec ob rd es ex).1,
      (compute_needs_update_spec ob rd es ex).2.1,
      (compute_needs_update_spec ob rd es ex).2.2,
      (mirrorTrigger_spec _ _ _ rd).1, (mirrorTrigger_spec _ _ _ rd).2⟩
  · simp only [compute_needs_update, hprev, hdata]
    rw [driftReasons_self E M xf hM hxf hxft hgates]
    rfl

/-- Witness for C6's amended statement at the concrete fixture of two
identical runs with no content-gate failures. -/
theorem drift_no_trigger_when_unchanged_witness :
    (latestPriorRunDate (c6OutBase []) "2026-01-21" = some "2026-01-20"
      ∧ pget (c6PrevMeta []) "extracted_fields" = c6Extracted []
      ∧ (c6Extracted []).truthy = true
      ∧ pget (c6Extracted []) "content_gate_failures" = .jarr [])
    ∧ ((∀ (ob : List (String × MirrorRunData)) (rd : String) (es ex : JVal),
        ((compute_needs_update ob rd es ex).1 = true ↔
          (compute_needs_update ob rd es ex).2.1 ≠ [])
        ∧ List.Sorted (· ≤ ·) (compute_needs_update ob rd es ex).2.1
        ∧ (compute_needs_update ob rd es ex).2.1.Nodup
        ∧ ((mirrorTrigger (compute_needs_update ob rd es ex).1
              (compute_needs_update ob rd es ex).2.1
              (compute_needs_update ob rd es ex).2.2 rd).isSome ↔
            (compute_needs_update ob rd es ex).1 = true)
        ∧ ((compute_needs_update ob rd es ex).1 = true →
            mirrorTrigger (compute_needs_update ob rd es ex).1
              (compute_needs_update ob rd es ex).2.1
              (compute_needs_update ob rd es ex).2.2 rd =
            some (.jobj [("reason",
                .jarr ((compute_needs_update ob rd es ex).2.1.map JVal.jstr)),
              ("previous_run", optStr (compute_needs_update ob rd es ex).2.2),
              ("current_run", .jstr rd)])))
      ∧ compute_needs_update (c6OutBase []) "2026-01-21" c6PrevEntry (c6Extracted []) =
          (false, [], some "2026-01-20")
      ∧ mirrorTrigger false [] (some "2026-01-20") "2026-01-21" = none) :=
  ⟨⟨by decide, rfl, rfl, rfl⟩,
    drift_no_trigger_when_unchanged (c6OutBase []) "2026-01-21" "2026-01-20"
      c6PrevEntry (c6PrevMeta []) (c6Extracted []) (by decide) rfl rfl rfl rfl rfl⟩

/-! ## Fallback fingerprints (`_best_fallback_fingerprint`, `_entrypoint_status`) -/

/-- The `FetchResult` record of the mirror script. -/
structure MirrorFetchResult where
  name : String
  url : String
  http_status : Option Int
  content_type : Option String
  content_length : Option Int
  etag : Option String
  last_modified : Option String
  stored_path : Option String
  sha256 : Option String
  error : Option String

/-- `_headers_fingerprint(result)`, keys in the dictionary order of the
source. -/
def headers_fingerprint (r : MirrorFetchResult) : List (String × JVal) :=
  [("etag", optStr r.etag), ("last_modified", optStr r.last_modified),
   ("content_length", optInt r.content_length), ("content_type", optStr r.content_type),
   ("http_status", optInt r.http_status), ("error", optStr r.error)]

/-- `by_name = {r.name: r for r in results}` followed by `.get(n)`: the
last result with the given name wins. -/
def byName (rs : List MirrorFetchResult) (n : String) : Option MirrorFetchResult :=
  rs.reverse.find? (fun r => r.name == n)

/-- The pdf/html entries of `_best_fallback_fingerprint`: `None` when the
artifact is missing, errored or unhashed. -/
def gatedFallback (r : Option MirrorFetchResult) : JVal :=
  match r with
  | none => .jnull
  | some r =>
    if r.error.isSome || r.sha256.isNone then .jnull
    else .jobj (("sha256", optStr r.sha256) :: headers_fingerprint r)

/-- `_best_fallback_fingerprint(results)` (the `eli_oj` entry is kept even
when errored, exactly as in the source). -/
def best_fallback_fingerprint (results : List MirrorFetchResult) : JVal :=
  .jobj [("pdf", gatedFallback (byName results "pdf")),
    ("html", gatedFallback (byName results "html")),
    ("eli_oj",
      match byName results "eli_oj" with
      | none => .jnull
      | some r => .jobj (("sha256", optStr r.sha256) :: headers_fingerprint r))]

/-- The `entrypoint_status.json` document `_entrypoint_status` builds when
the LSU entry point is unreachable: the evidence is the fallback
fingerprint of the secondary artifacts. -/
def entrypointStatusUnreachable (entrypointUrl : String) (httpStatus : Option Int)
    (err : Option String) (results : List MirrorFetchResult) : JVal :=
  .jobj [("entrypoint_url", .jstr entrypointUrl), ("attempted", .jbool true),
    ("http_status", optInt httpStatus), ("reachable", .jbool false),
    ("error", optStr err),
    ("evidence", .jobj [("fallback", best_fallback_fingerprint results)])]

/-- Fixture: a successfully fetched secondary artifact with the given
fingerprint. -/
def c7Result (nm sha : String) : MirrorFetchResult :=
  ⟨nm, "https://eur-lex.example/" ++ nm, some 200, some "ct", some 10, none, none,
    some (nm ++ ".bin"), some sha, none⟩

/-- Fixture: an unreachable-entry-point status over three secondary
artifacts with the given fingerprints. -/
def c7Entry (pdfSha htmlSha eliSha : String) : JVal :=
  entrypointStatusUnreachable "https://lsu" (some 202) (some "waf_challenge")
    [c7Result "pdf" pdfSha, c7Result "html" htmlSha, c7Result "eli_oj" eliSha]

/-- Fixture: the previous run's metadata. -/
def c7Meta : JVal := .jobj [("extracted_fields", .jobj [("summary_last_update", .jnull)])]

/-- Fixture: the current run's extracted fields (no gate failures). -/
def c7X : JVal := .jobj [("summary_last_update", .jnull), ("content_gate_failures", .jarr [])]

/-- Fixture: an out_base holding the previous unreachable run. -/
def c7OutBase (pdfSha htmlSha eliSha : String) : List (String × MirrorRunData) :=
  [("2026-01-20", ⟨some (c7Entry pdfSha htmlSha eliSha), some c7Meta⟩)]

/-- C7: for two runs of the same source with the primary entry point
unreachable in both, where exactly one secondary artifact's fingerprint
differs between the runs, the drift detector yields `needsUpdate = true`
with the single reason naming that fallback artifact
(`lsu_unreachable_but_<artifact>_sha256_changed`). -/
theorem drift_unreachable_fallback_changed (a b p q r : String) :
    (a ≠ b → compute_needs_update (c7OutBase b q r) "2026-01-21" (c7Entry a q r) c7X =
      (true, ["lsu_unreachable_but_pdf_sha256_changed"], some "2026-01-20"))
    ∧ (a ≠ b → compute_needs_update (c7OutBase p b r) "2026-01-21" (c7Entry p a r) c7X =
      (true, ["lsu_unreachable_but_html_sha256_changed"], some "2026-01-20"))
    ∧ (a ≠ b → compute_needs_update (c7OutBase p q b) "2026-01-21" (c7Entry p q a) c7X =
      (true, ["lsu_unreachable_but_eli_oj_sha256_changed"], some "2026-01-20")) := by
  refine ⟨?_, ?_, ?_⟩
  · intro hab
    have hne : (a == b) = false := by simpa using hab
    have hlp : latestPriorRunDate (c7OutBase b q r) "2026-01-21" = some "2026-01-20" := rfl
    have hrd : runDataAt (c7OutBase b q r) "2026-01-20" =
        ⟨some (c7Entry b q r), some c7Meta⟩ := rfl
    simp only [compute_needs_update, hlp, hrd]
    have hreason : driftReasons (some (c7Entry b q r)) (some c7Meta) (c7Entry a q r) c7X =
        ["lsu_unreachable_but_pdf_sha256_changed"] := by
      simp [driftReasons, c7Entry, c7Meta, c7X, entrypointStatusUnreachable,
        best_fallback_fingerprint, byName, gatedFallback, headers_fingerprint, c7Result,
        jpathGet, pget, JVal.lookup, orEmptyObj, JVal.truthy, JVal.isObj, JVal.beq,
        optStr, optInt, hne]
    rw [hreason]
    rfl
  · intro hab
    have hne : (a == b) = false := by simpa using hab
    have hlp : latestPriorRunDate (c7OutBase p b r) "2026-01-21" = some "2026-01-20" := rfl
    have hrd : runDataAt (c7OutBase p b r) "2026-01-20" =
        ⟨some (c7Entry p b r), some c7Meta⟩ := rfl
    simp only [compute_needs_update, hlp, hrd]
    have hreason : driftReasons (some (c7Entry p b r)) (some c7Meta) (c7Entry p a r) c7X =
        ["lsu_unreachable_but_html_sha256_changed"] := by
      simp [driftReasons, c7Entry, c7Meta, c7X, entrypointStatusUnreachable,
        best_fallback_fingerprint, byName, gatedFallback, headers_fingerprint, c7Result,
        jpathGet, pget, JVal.lookup, orEmptyObj, JVal.truthy, JVal.isObj, JVal.beq,
        optStr, optInt, hne]
    rw [hreason]
    rfl
  · intro hab
    have hne : (a == b) = false := by simpa using hab
    have hlp : latestPriorRunDate (c7OutBase p q b) "2026-01-21" = some "2026-01-20" := rfl
    have hrd : runDataAt (c7OutBase p q b) "2026-01-20" =
        ⟨some (c7Entry p q b), some c7Meta⟩ := rfl
    simp only [compute_needs_update, hlp, hrd]
    have hreason : driftReasons (some (c7Entry p q b)) (some c7Meta) (c7Entry p q a) c7X =
        ["lsu_unreachable_but_eli_oj_sha256_changed"] := by
      simp [driftReasons, c7Entry, c7Meta, c7X, entrypointStatusUnreachable,
        best_fallback_fingerprint, byName, gatedFallback, headers_fingerprint, c7Result,
        jpathGet, pget, JVal.lookup, orEmptyObj, JVal.truthy, JVal.isObj, JVal.beq,
        optStr, optInt, hne]
    rw [hreason]
    rfl

/-- Witness for C7 at concrete differing fingerprints. -/
theorem drift_unreachable_fallback_changed_witness :
    (("shaA" : String) ≠ "shaB")
    ∧ compute_needs_update (c7OutBase "shaB" "k1" "k2") "2026-01-21"
        (c7Entry "shaA" "k1" "k2") c7X =
      (true, ["lsu_unreachable_but_pdf_sha256_changed"], some "2026-01-20") :=
  ⟨by decide,
    (drift_unreachable_fallback_changed "shaA" "shaB" "p" "k1" "k2").1 (by decide)⟩

/-! ## Dependency-definition watcher (`scripts/watch_dependency_definitions.py`) -/

/-- The state of one run directory's `metadata.json` as the watcher sees
it: absent (skipped as history, error as current), present but failing the
watcher's strict `_read_json` (which raises and aborts the process), or a
readable dictionary. -/
inductive MetaFile where
  | absent
  | invalid
  | valid (v : JVal)

/-- `(child / "metadata.json").exists()`. -/
def metaExists : MetaFile → Bool
  | .absent => false
  | _ => true

/-- `_is_date_dir_name`: length 10 with dashes at positions 4 and 7. -/
def watchIsDateDirName (s : String) : Bool :=
  match s.toList with
  | [_, _, _, _, e, _, _, h, _, _] => e == '-' && h == '-'
  | _ => false

/-- One watched source: its id, its storage base path, and its dated run
directories with their metadata files. -/
structure WatchSource where
  id : String
  base : String
  runs : List (String × MetaFile)

/-- Metadata file of the named run directory. -/
def runMetaAt (runs : List (String × MetaFile)) (d : String) : MetaFile :=
  ((runs.find? (fun c => c.1 == d)).map Prod.snd).getD .absent

/-- The watcher's `_latest_prior_run_date`: the maximum date-named child
before `runDate` whose `metadata.json` exists (`max(dates)` modelled as
the last element of the sorted list). -/
def watchLatestPrior (runs : List (String × MetaFile)) (runDate : String) : Option String :=
  (List.insertionSort strLE ((runs.filter (fun c =>
    watchIsDateDirName c.1 && decide (strLT c.1 runDate) && metaExists c.2)).map
      Prod.fst)).getLast?

/-- `TRIGGER_NOTES`. -/
def TRIGGER_NOTES : String :=
  "Dependency definition changed; downstream methods that rely on semantics must rerun "
    ++ "definition_comparison control."

/-- The canonical trigger directory `TRIGGERS_BASE`. -/
def TRIGGERS_BASE : String := "/Users/server/audit/eudr_dmi/digital_twin_triggers/dependencies"

/-- `_trigger_payload(...)`. -/
def trigger_payload (source_id previous_run current_run previous_sha current_sha : String) :
    JVal :=
  .jobj [("trigger_type", .jstr "DEPENDENCY_DEFINITION_CHANGED"),
    ("source_id", .jstr source_id), ("previous_run", .jstr previous_run),
    ("current_run", .jstr current_run),
    ("previous_artifact_sha256", .jstr previous_sha),
    ("current_artifact_sha256", .jstr current_sha),
    ("requires_rerun", .jbool true), ("notes", .jstr TRIGGER_NOTES)]

/-- Outcome of the watcher's per-source loop body: an error string
collected into `errors`, a change with its trigger payload, no change, or
an uncaught exception from the strict `_read_json` (which aborts the whole
invocation). -/
inductive WatchStep where
  | err (e : String)
  | changed (t : JVal)
  | unchanged
  | crash

/-- `artifact_sha256` of a metadata record, when it is a 64-character
string. -/
def artifactSha64 (meta : JVal) : Option String :=
  match pget meta "artifact_sha256" with
  | .jstr s => if s.length = 64 then some s else none
  | _ => none

/-- The per-source body of the watcher's main loop. -/
def watchStepFor (src : WatchSource) (runDate : String) : WatchStep :=
  match runMetaAt src.runs runDate with
  | .absent => .err ("missing_current_metadata:" ++ src.id ++ ":" ++ src.base ++ "/"
      ++ runDate ++ "/metadata.json")
  | .invalid => .crash
  | .valid cur =>
    match artifactSha64 cur with
    | none => .err ("invalid_current_artifact_sha256:" ++ src.id)
    | some curSha =>
      match watchLatestPrior src.runs runDate with
      | none => .err ("no_previous_run:" ++ src.id)
      | some prevDate =>
        match runMetaAt src.runs prevDate with
        | .absent => .err ("missing_previous_metadata:" ++ src.id ++ ":" ++ src.base ++ "/"
            ++ prevDate ++ "/metadata.json")
        | .invalid => .crash
        | .valid prev =>
          match artifactSha64 prev with
          | none => .err ("invalid_previous_artifact_sha256:" ++ src.id)
          | some prevSha =>
            if prevSha ≠ curSha then
              .changed (trigger_payload src.id prevDate runDate prevSha curSha)
            else .unchanged

/-- The collected per-source error strings of one invocation. -/
def watchErrors (sources : List WatchSource) (runDate : String) : List String :=
  sources.filterMap (fun s =>
    match watchStepFor s runDate with
    | .err e => some e
    | _ => none)

/-- The collected `(source_id, payload)` pairs of drifted sources. -/
def watchChanged (sources : List WatchSource) (runDate : String) : List (String × JVal) :=
  sources.filterMap (fun s =>
    match watchStepFor s runDate with
    | .changed t => some (s.id, t)
    | _ => none)

/-- Whether any source's metadata read raised (aborting the process). -/
def watchCrashed (sources : List WatchSource) (runDate : String) : Bool :=
  sources.any (fun s =>
    match watchStepFor s runDate with
    | .crash => true
    | _ => false)

/-- The tail of `watch_dependency_definitions.main` after the per-source
loop: `(exit code, stderr lines, trigger written at
TRIGGERS_BASE/<date>/digital_twin_trigger.json)`; `Except.error` stands
for the uncaught `_read_json` exception. -/
def watchMain (sources : List WatchSource) (runDate : String) :
    Except Unit (Int × List String × Option (String × JVal)) :=
  if watchCrashed sources runDate then .error ()
  else if watchErrors sources runDate ≠ [] then
    .ok (1, (watchErrors sources runDate).map (fun e => "ERROR: " ++ e), none)
  else
    match watchChanged sources runDate with
    | [] => .ok (0, [], none)
    | [c] => .ok (2, ["trigger_written=" ++ TRIGGERS_BASE ++ "/" ++ runDate
        ++ "/digital_twin_trigger.json source_id=" ++ c.1], some c)
    | _ => .ok (1,
        ["ERROR: multiple sources changed; run with --id to emit a single canonical trigger"],
        none)

/-- C8: if more than one dependency source drifted in a single watcher
invocation (with no per-source errors and no aborting read), the watcher
exits with code 1, prints only the error instructing the operator to
re-invoke with `--id`, and writes no trigger for any of the drifted
sources. -/
theorem watch_multi_drift_aborts (sources : List WatchSource) (runDate : String)
    (hnocrash : watchCrashed sources runDate = false)
    (herr : watchErrors sources runDate = [])
    (hmulti : 2 ≤ (watchChanged sources runDate).length) :
    watchMain sources runDate = .ok (1,
      ["ERROR: multiple sources changed; run with --id to emit a single canonical trigger"],
      none) := by
  unfold watchMain
  rw [hnocrash, herr, if_neg (by simp), if_neg (by simp)]
  cases hc : watchChanged sources runDate with
  | nil => rw [hc] at hmulti; simp at hmulti
  | cons c rest =>
    cases rest with
    | nil => rw [hc] at hmulti; simp at hmulti
    | cons c2 rest2 => rfl

/-- Witness for C8: two sources, each with a previous and a current run
whose 64-character fingerprints differ. -/
theorem watch_multi_drift_aborts_witness :
    (watchCrashed [⟨"depA", "/srv/a", [("2026-01-24",
          .valid (.jobj [("artifact_sha256", .jstr (String.mk (List.replicate 64 'a')))])),
        ("2026-01-25",
          .valid (.jobj [("artifact_sha256", .jstr (String.mk (List.replicate 64 'b')))]))]⟩,
      ⟨"depB", "/srv/b", [("2026-01-24",
          .valid (.jobj [("artifact_sha256", .jstr (String.mk (List.replicate 64 'c')))])),
        ("2026-01-25",
          .valid (.jobj [("artifact_sha256", .jstr (String.mk (List.replicate 64 'd')))]))]⟩]
      "2026-01-25" = false)
    ∧ (watchMain [⟨"depA", "/srv/a", [("2026-01-24",
          .valid (.jobj [("artifact_sha256", .jstr (String.mk (List.replicate 64 'a')))])),
        ("2026-01-25",
          .valid (.jobj [("artifact_sha256", .jstr (String.mk (List.replicate 64 'b')))]))]⟩,
      ⟨"depB", "/srv/b", [("2026-01-24",
          .valid (.jobj [("artifact_sha256", .jstr (String.mk (List.replicate 64 'c')))])),
        ("2026-01-25",
          .valid (.jobj [("artifact_sha256", .jstr (String.mk (List.replicate 64 'd')))]))]⟩]
      "2026-01-25" = .ok (1,
        ["ERROR: multiple sources changed; run with --id to emit a single canonical trigger"],
        none)) :=
  ⟨rfl, watch_multi_drift_aborts _ "2026-01-25" rfl rfl (by decide)⟩

/-! ## Bundle validator (`scripts/validate_evidence_bundle.py`) -/

/-- Python `line.split()` restricted to space separators (the manifests
this tool reads contain no tabs): split on runs of spaces, dropping empty
tokens. -/
def splitWs (s : String) : List String :=
  ((splitOnChar ' ' s.toList).filter (fun t => t ≠ [])).map String.mk

/-- `_parse_manifest_lines(text)` over the split lines: strip, skip
blanks, `ValueError` (`none`) on a line with fewer than two tokens,
otherwise `(digest, relative path)` = (first token, last token). -/
def parseBundleManifest : List String → Option (List (String × String))
  | [] => some []
  | raw :: rest =>
    let line := pyStrip raw
    if line = "" then parseBundleManifest rest
    else
      match splitWs line with
      | [] => none
      | [_] => none
      | t :: ts => (parseBundleManifest rest).map (fun tl => (t, ts.getLastD t) :: tl)

/-- POSIX components of a manifest entry path. -/
def relComponents (s : String) : List String := (splitOnChar '/' s.toList).map String.mk

/-- `Path(s).is_absolute()` on POSIX. -/
def isAbsolutePath (s : String) : Bool :=
  match s.toList with
  | c :: _ => c == '/'
  | [] => false

/-- `(bundle_path / rel).resolve()` in a symlink-free tree: lexical
normalisation over the absolute bundle root. -/
def resolveComps (base rel : List String) : List String :=
  rel.foldl (fun acc c =>
    if c = "" ∨ c = "." then acc
    else if c = ".." then acc.dropLast
    else acc ++ [c]) base

/-- Contents of the file at an absolute, resolved component path. -/
def bundleFileAt (fsB : List (List String × String)) (p : List String) : Option String :=
  (fsB.find? (fun f => f.1 == p)).map (·.2)

/-- The result record of `validate_bundle`. -/
structure ValidationResult where
  ok : Bool
  errors : List String
  warnings : List String

/-- The per-entry checks of the `validate_bundle` loop: reject absolute
paths, then paths resolving outside the bundle root, then missing files,
then fingerprint mismatches; at most one error per entry, in that
order. -/
def entryErrors (hash : String → String) (root : List String)
    (fsB : List (List String × String)) (e : String × String) : List String :=
  if isAbsolutePath e.2 then
    ["Manifest entry must be relative, got absolute path: " ++ e.2]
  else
    let fp := resolveComps root (relComponents e.2)
    if !(root.isPrefixOf fp) then
      ["Manifest entry escapes bundle dir: " ++ e.2]
    else
      match bundleFileAt fsB fp with
      | none => ["Missing file listed in manifest: " ++ e.2]
      | some c =>
        if hash c ≠ e.1 then
          ["SHA256 mismatch for " ++ e.2 ++ ": expected=" ++ e.1 ++ " actual=" ++ hash c]
        else []

/-- The missing-deterministic-metadata error of `validate_bundle` (empty
when one of the two recognised filenames is present). -/
def bundlePreErrors (fsB : List (List String × String)) (root : List String) : List String :=
  if (bundleFileAt fsB (root ++ ["bundle_metadata.json"])).isSome
      || (bundleFileAt fsB (root ++ ["deterministic_metadata.json"])).isSome then []
  else ["Missing deterministic metadata JSON (expected one of: "
    ++ "bundle_metadata.json, deterministic_metadata.json)"]

/-- The missing-execution-log warning of `validate_bundle`. -/
def bundleWarnings (fsB : List (List String × String)) (root : List String) : List String :=
  if (bundleFileAt fsB (root ++ ["execution_log.json"])).isSome then []
  else ["Missing recommended file: execution_log.json"]

/-- `validate_bundle(bundle_dir)`: require the directory and the
manifest; flag missing deterministic metadata as an error and a missing
execution log as a warning; parse the manifest; then run the per-entry
checks over every entry and report `ok` iff no error was collected.
`fsB` maps absolute resolved component paths to contents; `root` is the
resolved bundle directory. -/
def validate_bundle (hash : String → String) (root : List String)
    (dirExists isDir : Bool) (fsB : List (List String × String)) : ValidationResult :=
  if !dirExists then
    ⟨false, ["Bundle path does not exist: " ++ String.intercalate "/" root], []⟩
  else if !isDir then
    ⟨false, ["Bundle path is not a directory: " ++ String.intercalate "/" root], []⟩
  else
    match bundleFileAt fsB (root ++ ["manifest.sha256"]) with
    | none => ⟨false, ["Missing required file: manifest.sha256"], []⟩
    | some manText =>
      match parseBundleManifest (splitLines manText) with
      | none =>
        ⟨false, bundlePreErrors fsB root
          ++ ["Failed to parse manifest.sha256: ValueError: invalid line"],
          bundleWarnings fsB root⟩
      | some entries =>
        if entries = [] then
          ⟨false, bundlePreErrors fsB root ++ ["manifest.sha256 contains no entries"],
            bundleWarnings fsB root⟩
        else
          let errs := bundlePreErrors fsB root ++ entries.flatMap (entryErrors hash root fsB)
          ⟨errs.isEmpty, errs, bundleWarnings fsB root⟩

/-- C9: every manifest entry whose path is absolute or resolves outside
the bundle root is reported with an error naming that entry; the
referenced file is neither hashed nor followed (the entry's handling is
independent of the file tree); validation does not raise and keeps
processing the remaining entries (every entry's errors reach the
result), and the structured result has `ok = false`. -/
theorem bundle_path_escape_rejected (hash : String → String) (root : List String)
    (fsB fsB2 : List (List String × String)) (manText : String)
    (entries : List (String × String)) (d rp : String)
    (hman : bundleFileAt fsB (root ++ ["manifest.sha256"]) = some manText)
    (hparse : parseBundleManifest (splitLines manText) = some entries)
    (hmem : (d, rp) ∈ entries)
    (hesc : isAbsolutePath rp = true ∨
      root.isPrefixOf (resolveComps root (relComponents rp)) = false) :
    ((isAbsolutePath rp = true ∧ entryErrors hash root fsB (d, rp) =
        ["Manifest entry must be relative, got absolute path: " ++ rp])
      ∨ (isAbsolutePath rp = false ∧ entryErrors hash root fsB (d, rp) =
        ["Manifest entry escapes bundle dir: " ++ rp]))
    ∧ entryErrors hash root fsB2 (d, rp) = entryErrors hash root fsB (d, rp)
    ∧ (∀ e, e ∈ entries → ∀ m, m ∈ entryErrors hash root fsB e →
        m ∈ (validate_bundle hash root true true fsB).errors)
    ∧ (validate_bundle hash root true true fsB).ok = false := by
  have hne : entries ≠ [] := by
    intro h
    rw [h] at hmem
    simp at hmem
  have hval : validate_bundle hash root true true fsB =
      ⟨(bundlePreErrors fsB root ++ entries.flatMap (entryErrors hash root fsB)).isEmpty,
        bundlePreErrors fsB root ++ entries.flatMap (entryErrors hash root fsB),
        bundleWarnings fsB root⟩ := by
    unfold validate_bundle
    rw [hman]
    simp only [hparse, if_neg hne]
    rfl
  have hpre : isAbsolutePath rp = false →
      root.isPrefixOf (resolveComps root (relComponents rp)) = false := by
    intro habs
    rcases hesc with h | h
    · rw [habs] at h
      cases h
    · exact h
  have hescmsg : (isAbsolutePath rp = true ∧ entryErrors hash root fsB (d, rp) =
      ["Manifest entry must be relative, got absolute path: " ++ rp])
      ∨ (isAbsolutePath rp = false ∧ entryErrors hash root fsB (d, rp) =
        ["Manifest entry escapes bundle dir: " ++ rp]) := by
    by_cases habs : isAbsolutePath rp = true
    · exact Or.inl ⟨habs, by simp [entryErrors, habs]⟩
    · have habs2 : isAbsolutePath rp = false := by simpa using habs
      exact Or.inr ⟨habs2, by simp [entryErrors, habs2, hpre habs2]⟩
  have hmemerr : ∀ e, e ∈ entries → ∀ m, m ∈ entryErrors hash root fsB e →
      m ∈ (validate_bundle hash root true true fsB).errors := by
    intro e he m hm
    rw [hval]
    exact List.mem_append.2 (Or.inr (List.mem_flatMap.2 ⟨e, he, hm⟩))
  refine ⟨hescmsg, ?_, hmemerr, ?_⟩
  · rcases hescmsg with ⟨habs, hmsg⟩ | ⟨habs, hmsg⟩
    · rw [hmsg]
      simp [entryErrors, habs]
    · rw [hmsg]
      simp [entryErrors, habs, hpre habs]
  · have hm0 : ∃ m, m ∈ (validate_bundle hash root true true fsB).errors := by
      rcases hescmsg with ⟨_, hmsg⟩ | ⟨_, hmsg⟩ <;>
        exact ⟨_, hmemerr (d, rp) hmem _ (by rw [hmsg]; exact List.mem_singleton.2 rfl)⟩
    rcases hm0 with ⟨m, hm⟩
    rw [hval] at hm ⊢
    cases hie : (bundlePreErrors fsB root
        ++ entries.flatMap (entryErrors hash root fsB)).isEmpty
    · rfl
    · rw [List.isEmpty_iff] at hie
      rw [hie] at hm
      simp at hm

/-- Witness for C9: a bundle whose manifest lists `../secret`. -/
theorem bundle_path_escape_rejected_witness :
    (bundleFileAt [(["bundle", "manifest.sha256"], "deadbeef  ../secret\n")]
        (["bundle"] ++ ["manifest.sha256"]) = some "deadbeef  ../secret\n"
      ∧ parseBundleManifest (splitLines "deadbeef  ../secret\n") =
        some [("deadbeef", "../secret")]
      ∧ (("deadbeef", "../secret") ∈ [(("deadbeef" : String), ("../secret" : String))])
      ∧ (["bundle"].isPrefixOf (resolveComps ["bundle"] (relComponents "../secret")) = false))
    ∧ (((isAbsolutePath "../secret" = true ∧ entryErrors (fun s => s) ["bundle"]
          [(["bundle", "manifest.sha256"], "deadbeef  ../secret\n")] ("deadbeef", "../secret") =
          ["Manifest entry must be relative, got absolute path: " ++ "../secret"])
        ∨ (isAbsolutePath "../secret" = false ∧ entryErrors (fun s => s) ["bundle"]
          [(["bundle", "manifest.sha256"], "deadbeef  ../secret\n")] ("deadbeef", "../secret") =
          ["Manifest entry escapes bundle dir: " ++ "../secret"]))
      ∧ entryErrors (fun s => s) ["bundle"] [] ("deadbeef", "../secret") =
          entryErrors (fun s => s) ["bundle"]
            [(["bundle", "manifest.sha256"], "deadbeef  ../secret\n")] ("deadbeef", "../secret")
      ∧ (∀ e, e ∈ [(("deadbeef" : String), ("../secret" : String))] →
          ∀ m, m ∈ entryErrors (fun s => s) ["bundle"]
            [(["bundle", "manifest.sha256"], "deadbeef  ../secret\n")] e →
          m ∈ (validate_bundle (fun s => s) ["bundle"] true true
            [(["bundle", "manifest.sha256"], "deadbeef  ../secret\n")]).errors)
      ∧ (validate_bundle (fun s => s) ["bundle"] true true
          [(["bundle", "manifest.sha256"], "deadbeef  ../secret\n")]).ok = false) :=
  ⟨⟨rfl, by decide, by decide, by decide⟩,
    bundle_path_escape_rejected (fun s => s) ["bundle"]
      [(["bundle", "manifest.sha256"], "deadbeef  ../secret\n")] [] "deadbeef  ../secret\n"
      [("deadbeef", "../secret")] "deadbeef" "../secret" rfl (by decide) (by decide)
      (Or.inr (by decide))⟩

end EudrDmi
